import Mathlib

/-!
LoRa-Mbed: a shallow embedding of the SX1276 driver `LoRaPort`.

The driver (`src/LoRa.cpp`, `src/LoRa.h`) talks to the radio chip through
two-byte SPI exchanges.  The embedding keeps the driver's member variables in
a record, threads that record through every member function, and records every
pin write and bus exchange in a trace.

Machine integers are natural numbers or integers with the reductions the C++
types perform written out: `uint8_t` is `% 256`, `uint16_t` is `% 65536`,
`int8_t` and `int16_t` are the two's-complement readings `toInt8`, `toInt16`,
and `size_t`, `long`, `int` are 32 bits wide (the Mbed targets are 32-bit ARM
cores).  The `float` arithmetic of `timeOnAir` is carried out exactly, on
rationals.  The application's callbacks are parameters of the interrupt
handler; a callback slot records only whether a callback is bound.

The chip is not part of the repository.  `Chip` is a model of its register
file as the driver sees it between two bus exchanges: an ordinary register
returns the byte last stored in it, the FIFO register reads or writes the data
buffer at the FIFO address pointer and then increments the pointer, and the
IRQ-flags register clears the bits that are written as one.
-/

namespace LoRa

/-! ## Register addresses and constants (`LoRa.cpp`, lines 7-63) -/

def REG_FIFO : Nat := 0x00
def REG_OP_MODE : Nat := 0x01
def REG_FRF_MSB : Nat := 0x06
def REG_FRF_MID : Nat := 0x07
def REG_FRF_LSB : Nat := 0x08
def REG_PA_CONFIG : Nat := 0x09
def REG_OCP : Nat := 0x0b
def REG_LNA : Nat := 0x0c
def REG_FIFO_ADDR_PTR : Nat := 0x0d
def REG_FIFO_TX_BASE_ADDR : Nat := 0x0e
def REG_FIFO_RX_BASE_ADDR : Nat := 0x0f
def REG_FIFO_RX_CURRENT_ADDR : Nat := 0x10
def REG_IRQ_FLAGS : Nat := 0x12
def REG_RX_NB_BYTES : Nat := 0x13
def REG_MODEM_CONFIG_1 : Nat := 0x1d
def REG_MODEM_CONFIG_2 : Nat := 0x1e
def REG_PAYLOAD_LENGTH : Nat := 0x22
def REG_MODEM_CONFIG_3 : Nat := 0x26
def REG_DETECTION_OPTIMIZE : Nat := 0x31
def REG_DETECTION_THRESHOLD : Nat := 0x37
def REG_VERSION : Nat := 0x42
def REG_PA_DAC : Nat := 0x4d

def MODE_LONG_RANGE_MODE : Nat := 0x80
def MODE_SLEEP : Nat := 0x00
def MODE_STDBY : Nat := 0x01
def MODE_TX : Nat := 0x03
def MODE_RX_CONTINUOUS : Nat := 0x05
def MODE_RX_SINGLE : Nat := 0x06

def PA_BOOST : Nat := 0x80

def IRQ_TX_DONE_MASK : Nat := 0x08
def IRQ_PAYLOAD_CRC_ERROR_MASK : Nat := 0x20
def IRQ_RX_DONE_MASK : Nat := 0x40

def MAX_PKT_LENGTH : Nat := 255

def PA_OUTPUT_RFO_PIN : Nat := 0
def PA_OUTPUT_PA_BOOST_PIN : Nat := 1

def LOW : Nat := 0
def HIGH : Nat := 1

/-! ## Machine integers -/

/-- Width in bits of `size_t`, `int`, `long` and `unsigned long` on the 32-bit
ARM targets of Mbed. -/
def WORD : Nat := 32

/-- The value of a byte read as `int8_t` (two's complement). -/
def toInt8 (x : Nat) : Int :=
  if x % 256 < 128 then ((x % 256 : Nat) : Int) else ((x % 256 : Nat) : Int) - 256

/-- The value of an `int` converted to `int16_t` (two's complement). -/
def toInt16 (x : Int) : Int :=
  if x % 65536 < 32768 then x % 65536 else x % 65536 - 65536

/-- The 32-bit pattern of a signed value, as the conversion of `int` to an
unsigned 32-bit type gives it. -/
def toUnsigned (x : Int) : Nat := (x % (2 ^ WORD : Int)).toNat

/-! ## The chip as seen through the bus -/

/-- One observable action of the driver on its pins, its bus or its worker
thread. -/
inductive Event where
  | ss (level : Nat)
  | reset (level : Nat)
  | wait_us (us : Nat)
  | transfer (address value : Nat)
  | threadStart
  | receiveCallback (length : Nat)
  | txDoneCallback
  deriving DecidableEq, Repr

/-- Register file and FIFO data buffer of the radio chip. -/
structure Chip where
  regs : Nat → Nat
  fifo : Nat → Nat

/-- Pointwise update of a register file or of the data buffer. -/
def store (m : Nat → Nat) (a v : Nat) : Nat → Nat :=
  fun x => if x = a then v else m x

/-- The chip's side of one two-byte exchange: bit 7 of the first byte selects
a write, the low seven bits the register; the answer is the byte returned
while the second byte is clocked out. -/
def Chip.exchange (c : Chip) (address value : Nat) : Nat × Chip :=
  let a := address % 128
  if address / 128 % 2 = 1 then
    if a = REG_FIFO then
      (c.regs a,
        { regs := store c.regs REG_FIFO_ADDR_PTR ((c.regs REG_FIFO_ADDR_PTR + 1) % 256),
          fifo := store c.fifo (c.regs REG_FIFO_ADDR_PTR) value })
    else if a = REG_IRQ_FLAGS then
      (c.regs a, { c with regs := store c.regs a (c.regs a - (c.regs a &&& value)) })
    else
      (c.regs a, { c with regs := store c.regs a value })
  else
    if a = REG_FIFO then
      (c.fifo (c.regs REG_FIFO_ADDR_PTR),
        { c with regs := store c.regs REG_FIFO_ADDR_PTR ((c.regs REG_FIFO_ADDR_PTR + 1) % 256) })
    else
      (c.regs a, c)

/-! ## Driver state (`LoRa.h`, lines 110-127) -/

/-- The member variables of `LoRaPort`, the chip it drives and the trace of
its actions, most recent event first.  `_bandwidth` is a `float` that only ever
receives whole numbers of hertz; the two callbacks are kept as "bound or
empty", and `_dio0` as "a rising-edge handler is attached or not". -/
structure LoRaPort where
  chip : Chip
  trace : List Event
  _dio0 : Bool
  _frequency : Int
  _bandwidth : Nat
  _datarate : Nat
  _coderate : Nat
  _preamble_len : Nat
  _crc_on : Nat
  _packetIndex : Nat
  _implicitHeaderMode : Bool
  _onReceive : Bool
  _onTxDone : Bool

/-- Append an event to the trace. -/
def LoRaPort.emit (s : LoRaPort) (e : Event) : LoRaPort :=
  { s with trace := e :: s.trace }

/-! ## Register access (`LoRa.cpp`, lines 688-709) -/

/-- Member function `LoRaPort::singleTransfer`: chip-select low, the two-byte exchange,
chip-select high; returns the byte received. -/
def singleTransfer (s : LoRaPort) (address value : Nat) : Nat × LoRaPort :=
  let s1 := s.emit (.ss LOW)
  let r := s1.chip.exchange address value
  let s2 := { s1 with chip := r.2, trace := .transfer address value :: s1.trace }
  (r.1, s2.emit (.ss HIGH))

/-- Member function `LoRaPort::readRegister`: the answer is truncated to `uint8_t`. -/
def readRegister (s : LoRaPort) (address : Nat) : Nat × LoRaPort :=
  let r := singleTransfer s (address &&& 0x7f) 0x00
  (r.1 % 256, r.2)

/-- Member function `LoRaPort::writeRegister`: both arguments are `uint8_t`. -/
def writeRegister (s : LoRaPort) (address value : Nat) : LoRaPort :=
  (singleTransfer s ((address % 256) ||| 0x80) (value % 256)).2

/-! ## Operating mode and header mode (`LoRa.cpp`, lines 366-372, 590-600) -/

/-- Member function `LoRaPort::lora_idle`. -/
def lora_idle (s : LoRaPort) : LoRaPort :=
  writeRegister s REG_OP_MODE (MODE_LONG_RANGE_MODE ||| MODE_STDBY)

/-- Member function `LoRaPort::lora_sleep`. -/
def lora_sleep (s : LoRaPort) : LoRaPort :=
  writeRegister s REG_OP_MODE (MODE_LONG_RANGE_MODE ||| MODE_SLEEP)

/-- Member function `LoRaPort::explicitHeaderMode`. -/
def explicitHeaderMode (s : LoRaPort) : LoRaPort :=
  let s1 := { s with _implicitHeaderMode := false }
  let r := readRegister s1 REG_MODEM_CONFIG_1
  writeRegister r.2 REG_MODEM_CONFIG_1 (r.1 &&& 0xfe)

/-- Member function `LoRaPort::implicitHeaderMode`. -/
def implicitHeaderMode (s : LoRaPort) : LoRaPort :=
  let s1 := { s with _implicitHeaderMode := true }
  let r := readRegister s1 REG_MODEM_CONFIG_1
  writeRegister r.2 REG_MODEM_CONFIG_1 (r.1 ||| 0x01)

/-! ## Transmit path (`LoRa.cpp`, lines 149-198, 278-299) -/

/-- Member function `LoRaPort::isTransmitting`. -/
def isTransmitting (s : LoRaPort) : Bool × LoRaPort :=
  let r := readRegister s REG_OP_MODE
  if (r.1 &&& MODE_TX) = MODE_TX then
    (true, r.2)
  else
    let q := readRegister r.2 REG_IRQ_FLAGS
    if (q.1 &&& IRQ_TX_DONE_MASK) ≠ 0 then
      (false, writeRegister q.2 REG_IRQ_FLAGS IRQ_TX_DONE_MASK)
    else
      (false, q.2)

/-- Member function `LoRaPort::beginPacket`. -/
def beginPacket (s : LoRaPort) (implicitHeader : Bool) : Nat × LoRaPort :=
  let t := isTransmitting s
  if t.1 then
    (0, t.2)
  else
    let s1 := lora_idle t.2
    let s2 := if implicitHeader then implicitHeaderMode s1 else explicitHeaderMode s1
    let s3 := writeRegister s2 REG_FIFO_ADDR_PTR 0
    let s4 := writeRegister s3 REG_PAYLOAD_LENGTH 0
    (1, s4)

/-- The loop of `LoRaPort::write`: `n` more iterations starting at index `i`,
each writing `buffer[i]` to the FIFO register. -/
def writeLoop (buffer : List Nat) : Nat → Nat → LoRaPort → LoRaPort
  | _, 0, s => s
  | i, n + 1, s => writeLoop buffer (i + 1) n (writeRegister s REG_FIFO (buffer.getD i 0))

/-- Member function `LoRaPort::write(const uint8_t*, size_t)`.  `currentLength` is an `int8_t`;
the sum `currentLength + size` and the difference `MAX_PKT_LENGTH -
currentLength` are computed in `size_t`. -/
def write (s : LoRaPort) (buffer : List Nat) (size : Nat) : Nat × LoRaPort :=
  let r := readRegister s REG_PAYLOAD_LENGTH
  let currentLength : Int := toInt8 r.1
  let size1 : Nat :=
    if toUnsigned (currentLength + (size : Int)) > MAX_PKT_LENGTH then
      toUnsigned ((MAX_PKT_LENGTH : Int) - currentLength)
    else size
  let s1 := writeLoop buffer 0 size1 r.2
  let s2 := writeRegister s1 REG_PAYLOAD_LENGTH (toUnsigned (currentLength + (size1 : Int)))
  (size1, s2)

/-! ## Receive path (`LoRa.cpp`, lines 200-245, 301-330) -/

/-- Member function `LoRaPort::parsePacket`.  `packetLength` and `irqFlags` are `int8_t`. -/
def parsePacket (s : LoRaPort) (size : Nat) : Int × LoRaPort :=
  let r0 := readRegister s REG_IRQ_FLAGS
  let irqFlags : Int := toInt8 r0.1
  let s1 :=
    if size > 0 then
      writeRegister (implicitHeaderMode r0.2) REG_PAYLOAD_LENGTH (size &&& 0xFF)
    else
      explicitHeaderMode r0.2
  let s2 := writeRegister s1 REG_IRQ_FLAGS (toUnsigned irqFlags)
  if (toUnsigned irqFlags &&& IRQ_RX_DONE_MASK) ≠ 0 ∧
      (toUnsigned irqFlags &&& IRQ_PAYLOAD_CRC_ERROR_MASK) = 0 then
    let s3 := { s2 with _packetIndex := 0 }
    let r1 :=
      if s3._implicitHeaderMode then readRegister s3 REG_PAYLOAD_LENGTH
      else readRegister s3 REG_RX_NB_BYTES
    let packetLength : Int := toInt8 r1.1
    let r2 := readRegister r1.2 REG_FIFO_RX_CURRENT_ADDR
    let s4 := writeRegister r2.2 REG_FIFO_ADDR_PTR r2.1
    (packetLength, lora_idle s4)
  else
    let r1 := readRegister s2 REG_OP_MODE
    if r1.1 ≠ (MODE_LONG_RANGE_MODE ||| MODE_RX_SINGLE) then
      let s3 := writeRegister r1.2 REG_FIFO_ADDR_PTR 0
      (0, writeRegister s3 REG_OP_MODE (MODE_LONG_RANGE_MODE ||| MODE_RX_SINGLE))
    else
      (0, r1.2)

/-- Member function `LoRaPort::available`: the difference is an `int`, returned as
`int16_t`. -/
def available (s : LoRaPort) : Int × LoRaPort :=
  let r := readRegister s REG_RX_NB_BYTES
  (toInt16 ((r.1 : Int) - (s._packetIndex : Int)), r.2)

/-- Member function `LoRaPort::read`; `_packetIndex` is a `uint16_t`. -/
def read (s : LoRaPort) : Int × LoRaPort :=
  let a := available s
  if a.1 = 0 then
    (-1, a.2)
  else
    let s1 := { a.2 with _packetIndex := (a.2._packetIndex + 1) % 65536 }
    let r := readRegister s1 REG_FIFO
    (toInt16 r.1, r.2)

/-- Member function `LoRaPort::peek`. -/
def peek (s : LoRaPort) : Int × LoRaPort :=
  let a := available s
  if a.1 = 0 then
    (-1, a.2)
  else
    let cur := readRegister a.2 REG_FIFO_ADDR_PTR
    let b := readRegister cur.2 REG_FIFO
    let s1 := writeRegister b.2 REG_FIFO_ADDR_PTR cur.1
    (toInt16 b.1, s1)

/-! ## Radio configuration (`LoRa.cpp`, lines 374-523, 570-580) -/

/-- Member function `LoRaPort::setOCP`; `ocpTrim` is a `uint8_t`, the quotient an `int`. -/
def setOCP (s : LoRaPort) (mA : Nat) : LoRaPort :=
  let ocpTrim : Nat :=
    if mA ≤ 120 then toUnsigned (Int.tdiv ((mA : Int) - 45) 5) % 256
    else if mA ≤ 240 then ((mA + 30) / 10) % 256
    else 27
  writeRegister s REG_OCP (0x20 ||| (0x1F &&& ocpTrim))

/-- Member function `LoRaPort::setTxPower`; `level` is a `uint8_t`. -/
def setTxPower (s : LoRaPort) (level : Nat) (outputPin : Nat) : LoRaPort :=
  if PA_OUTPUT_RFO_PIN = outputPin then
    let level1 := if level > 14 then 14 else level
    writeRegister s REG_PA_CONFIG (0x70 ||| level1)
  else
    let p : Nat × LoRaPort :=
      if level > 17 then
        let level1 := if level > 20 then 20 else level
        let level2 := level1 - 3
        (level2, setOCP (writeRegister s REG_PA_DAC 0x87) 140)
      else
        let level1 := if level < 2 then 2 else level
        (level1, setOCP (writeRegister s REG_PA_DAC 0x84) 100)
    writeRegister p.2 REG_PA_CONFIG (PA_BOOST ||| (p.1 - 2))

/-- The frequency word of `LoRaPort::setFrequency`: the `long` argument is
converted to `uint64_t`, shifted and divided. -/
def frfOf (frequency : Int) : Nat :=
  (((frequency % (2 ^ 64 : Int)).toNat <<< 19) % 2 ^ 64) / 32000000

/-- Member function `LoRaPort::setFrequency`. -/
def setFrequency (s : LoRaPort) (frequency : Int) : LoRaPort :=
  let s0 := { s with _frequency := frequency }
  let frf := frfOf frequency
  let s1 := writeRegister s0 REG_FRF_MSB (frf >>> 16)
  let s2 := writeRegister s1 REG_FRF_MID (frf >>> 8)
  writeRegister s2 REG_FRF_LSB (frf >>> 0)

/-- Member function `LoRaPort::getSpreadingFactor`. -/
def getSpreadingFactor (s : LoRaPort) : Nat × LoRaPort :=
  let r := readRegister s REG_MODEM_CONFIG_2
  (r.1 >>> 4, r.2)

/-- The `switch` of `LoRaPort::getSignalBandwidth`. -/
def bandwidthOfIndex (bw : Nat) : Int :=
  match bw with
  | 0 => 7800
  | 1 => 10400
  | 2 => 15600
  | 3 => 20800
  | 4 => 31250
  | 5 => 41700
  | 6 => 62500
  | 7 => 125000
  | 8 => 250000
  | 9 => 500000
  | _ => -1

/-- Member function `LoRaPort::getSignalBandwidth`. -/
def getSignalBandwidth (s : LoRaPort) : Int × LoRaPort :=
  let r := readRegister s REG_MODEM_CONFIG_1
  (bandwidthOfIndex ((r.1 >>> 4) % 256), r.2)

/-- Member function `LoRaPort::setLdoFlag`.  Both divisions are C integer divisions on `long`;
the result is `none` when the second one divides by zero.  The two getters
are read left to right. -/
def setLdoFlag (s : LoRaPort) : Option LoRaPort :=
  let bw := getSignalBandwidth s
  let sf := getSpreadingFactor bw.2
  let divisor : Int := Int.tdiv bw.1 ((1 <<< sf.1 : Nat) : Int)
  if divisor = 0 then
    none
  else
    let symbolDuration : Int := Int.tdiv 1000 divisor
    let ldoOn : Bool := decide (symbolDuration > 16)
    let r := readRegister sf.2 REG_MODEM_CONFIG_3
    let config3 : Nat :=
      (r.1 ^^^ ((toUnsigned (-(if ldoOn then 1 else 0)) ^^^ r.1) &&& (1 <<< 3))) % 256
    some (writeRegister r.2 REG_MODEM_CONFIG_3 config3)

/-- Member function `LoRaPort::setSpreadingFactor`; `sf` is a `uint32_t`, `_datarate` a
`uint8_t`. -/
def setSpreadingFactor (s : LoRaPort) (sf : Nat) : Option LoRaPort :=
  let sf1 := if sf < 6 then 6 else if sf > 12 then 12 else sf
  let s1 :=
    if sf1 = 6 then
      writeRegister (writeRegister s REG_DETECTION_OPTIMIZE 0xc5) REG_DETECTION_THRESHOLD 0x0c
    else
      writeRegister (writeRegister s REG_DETECTION_OPTIMIZE 0xc3) REG_DETECTION_THRESHOLD 0x0a
  let r := readRegister s1 REG_MODEM_CONFIG_2
  let s2 := writeRegister r.2 REG_MODEM_CONFIG_2 ((r.1 &&& 0x0f) ||| ((sf1 <<< 4) &&& 0xf0))
  (setLdoFlag s2).map fun s3 => { s3 with _datarate := sf1 % 256 }

/-- The threshold ladder of `LoRaPort::setSignalBandwidth`: the index `bw` and,
when the branch assigns it, the new value of `_bandwidth`. -/
def bandwidthLadder (sbw : Nat) : Nat × Option Nat :=
  if sbw ≤ 7800 then (0, none)
  else if sbw ≤ 10400 then (1, some 10400)
  else if sbw ≤ 15600 then (2, some 15600)
  else if sbw ≤ 20800 then (3, some 20800)
  else if sbw ≤ 31250 then (4, some 31250)
  else if sbw ≤ 41700 then (5, some 41700)
  else if sbw ≤ 62500 then (6, some 62500)
  else if sbw ≤ 125000 then (7, some 125000)
  else if sbw ≤ 250000 then (8, some 250000)
  else (9, some 500000)

/-- Member function `LoRaPort::setSignalBandwidth`. -/
def setSignalBandwidth (s : LoRaPort) (sbw : Nat) : Option LoRaPort :=
  let l := bandwidthLadder sbw
  let s1 := { s with _bandwidth := l.2.getD s._bandwidth }
  let r := readRegister s1 REG_MODEM_CONFIG_1
  let s2 := writeRegister r.2 REG_MODEM_CONFIG_1 ((r.1 &&& 0x0f) ||| (l.1 <<< 4))
  setLdoFlag s2

/-- Member function `LoRaPort::setCodingRate4`; `denominator` and `cr` are
`uint8_t`. -/
def setCodingRate4 (s : LoRaPort) (denominator : Nat) : LoRaPort :=
  let d := if denominator < 5 then 5 else if denominator > 8 then 8 else denominator
  let cr := (d - 4) % 256
  let r := readRegister s REG_MODEM_CONFIG_1
  let s1 := writeRegister r.2 REG_MODEM_CONFIG_1 ((r.1 &&& 0xf1) ||| (cr <<< 1))
  { s1 with _coderate := cr }

/-- Member function `LoRaPort::timeOnAir`, with the `float` operations carried
out exactly on rationals.  The numerator of the symbol count is an `int`; the
result is the floor that the code converts to `uint32_t`, a conversion that is
the identity on values from 0 to 2^32 - 1. -/
def timeOnAir (s : LoRaPort) (pkt_len : Nat) : Int :=
  let rs : ℚ := (s._bandwidth : ℚ) / ((1 <<< s._datarate : Nat) : ℚ)
  let ts : ℚ := 1 / rs
  let tPreamble : ℚ := ((s._preamble_len : ℚ) + 17 / 4) * ts
  let tmp : ℚ :=
    (Int.ceil
      ((((8 * pkt_len : Nat) : Int) - ((4 * s._datarate : Nat) : Int) + 28
          + ((16 * s._crc_on : Nat) : Int) - 0 : Int) /
        (((4 * (s._datarate - 0) : Nat) : Int) : ℚ)) : ℚ)
      * ((s._coderate + 4 : Nat) : ℚ)
  let tPayload : ℚ := tmp * ts
  let tOnAir : ℚ := tPreamble + tPayload
  Int.floor (tOnAir * 1000)

/-! ## Callbacks and the interrupt handler (`LoRa.cpp`, lines 332-350, 654-686) -/

/-- Member function `LoRaPort::onReceive`; the argument says whether the
callback passed in is non-empty. -/
def onReceive (s : LoRaPort) (cb : Bool) : LoRaPort :=
  let s1 := { s with _onReceive := cb }
  if cb then { s1 with _dio0 := true } else { s1 with _dio0 := false }

/-- Member function `LoRaPort::onTxDone`; the argument says whether the
callback passed in is non-empty. -/
def onTxDone (s : LoRaPort) (cb : Bool) : LoRaPort :=
  let s1 := { s with _onTxDone := cb }
  if cb then { s1 with _dio0 := true } else { s1 with _dio0 := false }

/-- Member function `LoRaPort::handleDio0Rise`.  The two callbacks are
application code: they are parameters, the receive callback a function of the
length it is handed and of the driver state, and each is applied where the code
invokes the slot. -/
def handleDio0Rise (receiveCb : Nat → LoRaPort → LoRaPort) (txDoneCb : LoRaPort → LoRaPort)
    (s : LoRaPort) : LoRaPort :=
  let r0 := readRegister s REG_IRQ_FLAGS
  let irqFlags := r0.1
  let s1 := writeRegister r0.2 REG_IRQ_FLAGS irqFlags
  if (irqFlags &&& IRQ_PAYLOAD_CRC_ERROR_MASK) = 0 then
    if (irqFlags &&& IRQ_RX_DONE_MASK) ≠ 0 then
      let s2 := { s1 with _packetIndex := 0 }
      let r1 :=
        if s2._implicitHeaderMode then readRegister s2 REG_PAYLOAD_LENGTH
        else readRegister s2 REG_RX_NB_BYTES
      let packetLength := r1.1
      let r2 := readRegister r1.2 REG_FIFO_RX_CURRENT_ADDR
      let s3 := writeRegister r2.2 REG_FIFO_ADDR_PTR r2.1
      let s4 := if s3._onReceive then receiveCb packetLength s3 else s3
      writeRegister s4 REG_FIFO_ADDR_PTR 0
    else if (irqFlags &&& IRQ_TX_DONE_MASK) ≠ 0 then
      if s1._onTxDone then txDoneCb s1 else s1
    else
      s1
  else
    s1

/-! ## Start-up (`LoRa.cpp`, lines 98-138) -/

/-- Member function `LoRaPort::begin`. -/
def begin (s : LoRaPort) (frequency : Int) : Nat × LoRaPort :=
  let s1 := s.emit (.ss HIGH)
  let s2 := ((((s1.emit (.reset LOW)).emit (.wait_us 10000)).emit (.reset HIGH)).emit
    (.wait_us 10000))
  let v := readRegister s2 REG_VERSION
  if v.1 ≠ 0x12 then
    (0, v.2)
  else
    let s3 := lora_sleep v.2
    let s4 := setFrequency s3 frequency
    let s5 := writeRegister s4 REG_FIFO_TX_BASE_ADDR 0
    let s6 := writeRegister s5 REG_FIFO_RX_BASE_ADDR 0
    let lna := readRegister s6 REG_LNA
    let s7 := writeRegister lna.2 REG_LNA (lna.1 ||| 0x03)
    let s8 := writeRegister s7 REG_MODEM_CONFIG_3 0x04
    let s9 := setTxPower s8 17 PA_OUTPUT_PA_BOOST_PIN
    let s10 := lora_idle s9
    (1, s10.emit .threadStart)

/-- The driver right after construction on a given chip (`LoRa.cpp`, lines
65-92, and the default member initialisers of `LoRa.h`); `_bandwidth` has no
initialiser and is taken as a parameter. -/
def LoRaPort.init (c : Chip) (bandwidth : Nat) : LoRaPort :=
  { chip := c, trace := [.ss HIGH], _dio0 := false, _frequency := 0, _bandwidth := bandwidth,
    _datarate := 7, _coderate := 5, _preamble_len := 8, _crc_on := 0,
    _packetIndex := 0, _implicitHeaderMode := false, _onReceive := false,
    _onTxDone := false }

/-! ## Observations on the trace and on register states -/

/-- The register writes of a trace, most recent first: register address and
value of every exchange whose first byte has bit 7 set. -/
def registerWrites (t : List Event) : List (Nat × Nat) :=
  t.filterMap fun e =>
    match e with
    | .transfer a v => if a / 128 % 2 = 1 then some (a % 128, v) else none
    | _ => none

/-- The value most recently written to a register, if any. -/
def lastWritten (t : List Event) (reg : Nat) : Option Nat :=
  ((registerWrites t).find? fun w => w.1 == reg).map Prod.snd

/-- The number of bytes a trace has written to the FIFO register. -/
def fifoWrites (t : List Event) : Nat :=
  ((registerWrites t).filter fun w => w.1 == REG_FIFO).length

/-- The bandwidth table of the data model, in hertz. -/
def bandwidthTable : List Nat :=
  [7800, 10400, 15600, 20800, 31250, 41700, 62500, 125000, 250000, 500000]

/-- Spreading factor field of a register state: bits 7-4 of modem-config-2 as
the driver reads them. -/
def sfField (c : Chip) : Nat := c.regs REG_MODEM_CONFIG_2 % 256 / 16

/-- Bandwidth field of a register state: bits 7-4 of modem-config-1 as the
driver reads them. -/
def bwField (c : Chip) : Nat := c.regs REG_MODEM_CONFIG_1 % 256 / 16

/-- The divisor `getSignalBandwidth() / (1L << getSpreadingFactor())` that
`setLdoFlag` computes in a register state. -/
def ldoDivisor (c : Chip) : Int :=
  Int.tdiv (bandwidthOfIndex (bwField c)) ((1 <<< sfField c : Nat) : Int)

/-- The low-data-rate decision of `setLdoFlag` in a register state. -/
def ldoOnOf (c : Chip) : Bool := decide (Int.tdiv 1000 (ldoDivisor c) > 16)

/-- What `available` returns in a state, as a function of the received-byte
count register and the cursor. -/
def availableOf (s : LoRaPort) : Int :=
  toInt16 (((s.chip.regs REG_RX_NB_BYTES % 256 : Nat) : Int) - (s._packetIndex : Int))

/-- The frequency recomputed from the three frequency registers, in the words
of the specification: `hz = (frf * 32_000_000) >> 19`, with `frf` the 24-bit
word read back most significant byte first. -/
def readbackHz (c : Chip) : Nat :=
  ((c.regs REG_FRF_MSB * 65536 + c.regs REG_FRF_MID * 256 + c.regs REG_FRF_LSB) * 32000000) >>> 19

/-! ## Concrete states used in the instances below -/

/-- A state with one register of the chip replaced. -/
def LoRaPort.withReg (s : LoRaPort) (a v : Nat) : LoRaPort :=
  { s with chip := { s.chip with regs := store s.chip.regs a v } }

/-- Register values of an idle chip: LoRa standby, the reset values of the
modem-config registers with automatic gain control on (125 kHz, coding rate
4/5, spreading factor 7) and version 0x12, every other register zero; the
data buffer holds 0x41, 0x42, ... from address 0. -/
def Chip.idle : Chip :=
  { regs := fun a =>
      if a = REG_OP_MODE then 0x81
      else if a = REG_MODEM_CONFIG_1 then 0x72
      else if a = REG_MODEM_CONFIG_2 then 0x70
      else if a = REG_MODEM_CONFIG_3 then 0x04
      else if a = REG_VERSION then 0x12
      else 0,
    fifo := fun a => (0x41 + a) % 256 }

/-- A freshly constructed driver on an idle chip. -/
def LoRaPort.idle : LoRaPort := LoRaPort.init Chip.idle 125000

/-- The idle driver with 250 bytes already accumulated for transmission
(`beginPacket` followed by a `write` of 250 bytes leaves the payload-length
register at 250). -/
def LoRaPort.nearlyFull : LoRaPort := LoRaPort.idle.withReg REG_PAYLOAD_LENGTH 250

/-- The idle driver after the chip has received a 200-byte packet: RX-done is
raised, payload-CRC-error is clear, the received-byte count is 200. -/
def LoRaPort.packet200 : LoRaPort :=
  (LoRaPort.idle.withReg REG_IRQ_FLAGS 0x40).withReg REG_RX_NB_BYTES 200

/-- The idle driver with three received bytes waiting in the data buffer. -/
def LoRaPort.received3 : LoRaPort := LoRaPort.idle.withReg REG_RX_NB_BYTES 3

/-- The idle driver on a chip whose operating-mode register reads 0x87: LoRa
mode, mode bits 7 (channel activity detection). -/
def LoRaPort.detecting : LoRaPort := LoRaPort.idle.withReg REG_OP_MODE 0x87

/-! ## Callback observation and call sequences -/

/-- A receive callback that only records its invocation and its argument. -/
def recordReceive (length : Nat) (s : LoRaPort) : LoRaPort :=
  s.emit (.receiveCallback length)

/-- A transmit-done callback that only records its invocation. -/
def recordTxDone (s : LoRaPort) : LoRaPort :=
  s.emit .txDoneCallback

/-- The callback invocations recorded in a trace, most recent first. -/
def callbackCalls (t : List Event) : List Event :=
  t.filter fun e =>
    match e with
    | .receiveCallback _ => true
    | .txDoneCallback => true
    | _ => false

/-- The length `handleDio0Rise` reads for a received packet: the payload-length
register in implicit-header mode, the received-byte count otherwise. -/
def receivedLength (s : LoRaPort) : Nat :=
  if s._implicitHeaderMode then s.chip.regs REG_PAYLOAD_LENGTH % 256
  else s.chip.regs REG_RX_NB_BYTES % 256

/-- The state in which `handleDio0Rise` leaves the driver once it has read and
cleared the IRQ flags. -/
def irqCleared (s : LoRaPort) : LoRaPort :=
  writeRegister (readRegister s REG_IRQ_FLAGS).2 REG_IRQ_FLAGS (readRegister s REG_IRQ_FLAGS).1

/-- The state in which `handleDio0Rise` invokes the receive callback: flags
cleared, cursor reset, length read, FIFO pointer set to the current receive
address. -/
def atReceiveCall (s : LoRaPort) : LoRaPort :=
  let s2 := { irqCleared s with _packetIndex := 0 }
  let r1 :=
    if s2._implicitHeaderMode then readRegister s2 REG_PAYLOAD_LENGTH
    else readRegister s2 REG_RX_NB_BYTES
  let r2 := readRegister r1.2 REG_FIFO_RX_CURRENT_ADDR
  writeRegister r2.2 REG_FIFO_ADDR_PTR r2.1

/-- One call of `onReceive` or `onTxDone`, with "the callback passed in is
non-empty" as argument. -/
inductive BindCall where
  | onReceive (cb : Bool)
  | onTxDone (cb : Bool)
  deriving DecidableEq, Repr

/-- The effect of one binding call. -/
def BindCall.run (s : LoRaPort) : BindCall → LoRaPort
  | .onReceive cb => LoRa.onReceive s cb
  | .onTxDone cb => LoRa.onTxDone s cb

/-- The state after a sequence of binding calls, first call first. -/
def bindCalls (s : LoRaPort) (calls : List BindCall) : LoRaPort :=
  calls.foldl BindCall.run s

/-- The argument of a binding call. -/
def BindCall.arg : BindCall → Bool
  | .onReceive cb => cb
  | .onTxDone cb => cb

/-- The argument of an `onReceive` call, nothing for an `onTxDone` call. -/
def BindCall.receiveArg : BindCall → Option Bool
  | .onReceive cb => some cb
  | .onTxDone _ => none

/-- The argument of an `onTxDone` call, nothing for an `onReceive` call. -/
def BindCall.txDoneArg : BindCall → Option Bool
  | .onReceive _ => none
  | .onTxDone cb => some cb

/-! ## Time on air and over-current trim in the words of the claims -/

/-- The airtime formula as the specification writes it:
`floor(1000 * ((p + 4.25) + ceil((8*len - 4*sf + 28 + 16*c) / (4*sf)) * d) * 2^sf / bw)`. -/
def timeOnAirSpec (bw sf p c d len : Nat) : Int :=
  Int.floor
    ((1000 : ℚ) *
        (((p : ℚ) + 17 / 4) +
          (Int.ceil (((8 * (len : Int) - 4 * (sf : Int) + 28 + 16 * (c : Int) : Int) : ℚ) /
            (4 * (sf : ℚ))) : ℚ) * (d : ℚ)) *
        (2 : ℚ) ^ sf / (bw : ℚ))

/-- The 5-bit trim that `setOCP` leaves in the over-current-protection
register. -/
def ocpTrimWritten (s : LoRaPort) (mA : Nat) : Nat :=
  (setOCP s mA).chip.regs REG_OCP % 32

/-! ## Basic facts about the bus -/

theorem addr_read_eq : ∀ a < 128, a &&& 0x7f = a := by decide

theorem addr_write_eq : ∀ a < 128, (a % 256) ||| 0x80 = a + 128 := by decide

theorem readRegister_reg (s : LoRaPort) (a : Nat) (ha : a < 128) (h0 : a ≠ 0) :
    readRegister s a =
      (s.chip.regs a % 256,
        { s with trace := .ss HIGH :: .transfer a 0 :: .ss LOW :: s.trace }) := by
  have h1 : a / 128 % 2 = 0 := by omega
  have h2 : a % 128 = a := by omega
  simp [readRegister, singleTransfer, Chip.exchange, LoRaPort.emit, addr_read_eq a ha, h1, h2,
    REG_FIFO, h0]

theorem writeRegister_reg (s : LoRaPort) (a v : Nat) (ha : a < 128) (h0 : a ≠ 0)
    (h1 : a ≠ 0x12) :
    writeRegister s a v =
      { s with
        chip := { s.chip with regs := store s.chip.regs a (v % 256) },
        trace := .ss HIGH :: .transfer (a + 128) (v % 256) :: .ss LOW :: s.trace } := by
  have h2 : (a + 128) / 128 % 2 = 1 := by omega
  have h3 : (a + 128) % 128 = a := by omega
  have h4 : a / 128 = 0 := by omega
  simp [writeRegister, singleTransfer, Chip.exchange, LoRaPort.emit, addr_write_eq a ha, h2, h3,
    h4, REG_FIFO, REG_IRQ_FLAGS, h0, h1]

theorem readRegister_fifo (s : LoRaPort) :
    readRegister s 0 =
      (s.chip.fifo (s.chip.regs 0x0d) % 256,
        { s with
          chip := { s.chip with
            regs := store s.chip.regs 0x0d ((s.chip.regs 0x0d + 1) % 256) },
          trace := .ss HIGH :: .transfer 0 0 :: .ss LOW :: s.trace }) := by
  simp [readRegister, singleTransfer, Chip.exchange, LoRaPort.emit, REG_FIFO, REG_FIFO_ADDR_PTR]

theorem writeRegister_irq (s : LoRaPort) (v : Nat) :
    writeRegister s 0x12 v =
      { s with
        chip := { s.chip with
          regs := store s.chip.regs 0x12 (s.chip.regs 0x12 - (s.chip.regs 0x12 &&& (v % 256))) },
        trace := .ss HIGH :: .transfer 0x92 (v % 256) :: .ss LOW :: s.trace } := by
  simp [writeRegister, singleTransfer, Chip.exchange, LoRaPort.emit, REG_FIFO, REG_IRQ_FLAGS]

/-! ## Basic facts about the bit patterns the driver builds -/

theorem nibble_merge (x b : Nat) : (x &&& 0x0f) ||| (b <<< 4) = 16 * b + x % 16 := by
  have h1 : x &&& 0x0f = x % 16 := Nat.and_pow_two_sub_one_eq_mod x 4
  have h2 : x % 16 < 2 ^ 4 := by omega
  have h3 := Nat.mul_add_lt_is_or h2 b
  rw [h1, Nat.shiftLeft_eq, Nat.lor_comm]
  simpa [Nat.mul_comm] using h3.symm

theorem sf_nibble : ∀ c < 16, (c <<< 4) &&& 0xf0 = c <<< 4 := by decide

theorem and_mode_tx (x : Nat) : x &&& 3 = x % 4 :=
  Nat.and_pow_two_sub_one_eq_mod x 2

set_option maxRecDepth 100000 in
theorem header_bit_set : ∀ x < 256, (x ||| 0x01) % 256 % 2 = 1 := by decide

set_option maxRecDepth 100000 in
theorem header_bit_clear : ∀ x < 256, (x &&& 0xfe) % 256 % 2 = 0 := by decide

theorem toUnsigned_neg_one : toUnsigned (-1) = 4294967295 := by decide

theorem toUnsigned_zero : toUnsigned 0 = 0 := by decide

set_option maxRecDepth 100000 in
theorem ldo_bit_set : ∀ x < 256, (x ^^^ ((4294967295 ^^^ x) &&& 8)) % 256 = x ||| 8 := by
  decide

set_option maxRecDepth 100000 in
theorem ldo_bit_clear : ∀ x < 256, (x ^^^ (x &&& 8)) % 256 = x &&& 0xf7 := by
  decide

theorem toInt16_mod (x : Nat) : toInt16 ((x : Int) % 256) = (x : Int) % 256 := by
  unfold toInt16
  split <;> omega

/-! ## Bandwidth, spreading factor and the low-data-rate flag -/

theorem bandwidthLadder_lt (sbw : Nat) : (bandwidthLadder sbw).1 < 10 := by
  unfold bandwidthLadder
  repeat' split
  all_goals simp

theorem bandwidthLadder_smallest (sbw : Nat) :
    (∀ j, j < (bandwidthLadder sbw).1 → bandwidthTable.getD j 0 < sbw) ∧
      (sbw ≤ bandwidthTable.getD (bandwidthLadder sbw).1 0 ∨
        ((bandwidthLadder sbw).1 = 9 ∧ ∀ j, j < 10 → bandwidthTable.getD j 0 < sbw)) := by
  unfold bandwidthLadder
  repeat' split
  all_goals
    refine ⟨fun j hj => ?_, ?_⟩
    · simp only at hj
      interval_cases j <;> simp [bandwidthTable] <;> omega
    · by_cases h5 : sbw ≤ 500000
      · left; simp [bandwidthTable]; omega
      · first
          | (left; simp [bandwidthTable]; omega)
          | (right; refine ⟨rfl, fun j hj => ?_⟩
             interval_cases j <;> simp [bandwidthTable] <;> omega)

theorem ladder_divisor_ne_zero (i sf : Nat) (hi : i < 10) (hsf : sf ≤ 12) :
    Int.tdiv (bandwidthOfIndex i) ((1 <<< sf : Nat) : Int) ≠ 0 := by
  interval_cases i <;> interval_cases sf <;> decide

theorem setLdoFlag_spec (s : LoRaPort) (h : ldoDivisor s.chip ≠ 0) :
    ∃ s', setLdoFlag s = some s' ∧
      s'.chip.regs = store s.chip.regs REG_MODEM_CONFIG_3
        (if ldoOnOf s.chip = true then s.chip.regs REG_MODEM_CONFIG_3 % 256 ||| 8
          else s.chip.regs REG_MODEM_CONFIG_3 % 256 &&& 0xf7) ∧
      s'._datarate = s._datarate := by
  have hb : (s.chip.regs 29 % 256) >>> 4 % 256 = bwField s.chip := by
    simp only [bwField, REG_MODEM_CONFIG_1, Nat.shiftRight_eq_div_pow]; omega
  have hs : (s.chip.regs 30 % 256) >>> 4 = sfField s.chip := by
    simp only [sfField, REG_MODEM_CONFIG_2, Nat.shiftRight_eq_div_pow]
  have h3 : s.chip.regs 38 % 256 < 256 := by omega
  simp only [ldoDivisor] at h
  simp [setLdoFlag, getSignalBandwidth, getSpreadingFactor,
    readRegister_reg, writeRegister_reg, REG_MODEM_CONFIG_1, REG_MODEM_CONFIG_2,
    REG_MODEM_CONFIG_3, hb, hs, h, ldoOnOf, ldoDivisor]
  split
  · simp [toUnsigned_neg_one, ldo_bit_set _ h3]
  · simp [toUnsigned_zero, ldo_bit_clear _ h3]

theorem setSignalBandwidth_spec (s : LoRaPort) (sbw : Nat) (hsf : sfField s.chip ≤ 12) :
    ∃ s', setSignalBandwidth s sbw = some s' ∧
      s'.chip.regs REG_MODEM_CONFIG_1 =
        16 * (bandwidthLadder sbw).1 + s.chip.regs REG_MODEM_CONFIG_1 % 16 := by
  have hi := bandwidthLadder_lt sbw
  obtain ⟨s2, h2, hregs⟩ : ∃ s2, setSignalBandwidth s sbw = setLdoFlag s2 ∧
      s2.chip.regs = store s.chip.regs REG_MODEM_CONFIG_1
        (16 * (bandwidthLadder sbw).1 + s.chip.regs REG_MODEM_CONFIG_1 % 16) := by
    refine ⟨_, rfl, ?_⟩
    have : (16 * (bandwidthLadder sbw).1 + s.chip.regs 29 % 256 % 16) % 256
        = 16 * (bandwidthLadder sbw).1 + s.chip.regs 29 % 16 := by omega
    simp [readRegister_reg, writeRegister_reg, REG_MODEM_CONFIG_1, nibble_merge, this]
  have hbw : bwField s2.chip = (bandwidthLadder sbw).1 := by
    simp only [bwField, hregs, store, if_true]; omega
  have hsf2 : sfField s2.chip = sfField s.chip := by
    simp [sfField, hregs, store, REG_MODEM_CONFIG_1, REG_MODEM_CONFIG_2]
  have hdiv : ldoDivisor s2.chip ≠ 0 := by
    rw [ldoDivisor, hbw, hsf2]
    exact ladder_divisor_ne_zero _ _ hi hsf
  obtain ⟨s', hs', hr', -⟩ := setLdoFlag_spec s2 hdiv
  refine ⟨s', by rw [h2, hs'], ?_⟩
  rw [hr', hregs]
  simp [store, REG_MODEM_CONFIG_1, REG_MODEM_CONFIG_3]

theorem setSpreadingFactor_spec (s : LoRaPort) (sf : Nat) (hbw : bwField s.chip ≤ 9) :
    ∃ s', setSpreadingFactor s sf = some s' ∧
      s'.chip.regs REG_MODEM_CONFIG_2 =
        16 * max 6 (min sf 12) + s.chip.regs REG_MODEM_CONFIG_2 % 16 ∧
      s'._datarate = max 6 (min sf 12) ∧
      s'.chip.regs REG_DETECTION_OPTIMIZE = (if max 6 (min sf 12) = 6 then 0xc5 else 0xc3) ∧
      s'.chip.regs REG_DETECTION_THRESHOLD = (if max 6 (min sf 12) = 6 then 0x0c else 0x0a) := by
  have hc : (if sf < 6 then 6 else if sf > 12 then 12 else sf) = max 6 (min sf 12) := by
    split_ifs <;> omega
  have h6 : 6 ≤ max 6 (min sf 12) := by omega
  have h12 : max 6 (min sf 12) ≤ 12 := by omega
  unfold setSpreadingFactor
  simp only [hc]
  generalize max 6 (min sf 12) = c at *
  have hs1r : ∀ s1, s1 = (if c = 6 then
        writeRegister (writeRegister s REG_DETECTION_OPTIMIZE 0xc5) REG_DETECTION_THRESHOLD 0x0c
      else
        writeRegister (writeRegister s REG_DETECTION_OPTIMIZE 0xc3) REG_DETECTION_THRESHOLD 0x0a) →
      s1.chip.regs = store (store s.chip.regs REG_DETECTION_OPTIMIZE (if c = 6 then 0xc5 else 0xc3))
        REG_DETECTION_THRESHOLD (if c = 6 then 0x0c else 0x0a) := by
    intro s1 h
    rw [h]
    split <;>
      simp [writeRegister_reg, REG_DETECTION_OPTIMIZE, REG_DETECTION_THRESHOLD]
  generalize (if c = 6 then
        writeRegister (writeRegister s REG_DETECTION_OPTIMIZE 0xc5) REG_DETECTION_THRESHOLD 0x0c
      else
        writeRegister (writeRegister s REG_DETECTION_OPTIMIZE 0xc3) REG_DETECTION_THRESHOLD 0x0a)
    = s1 at hs1r ⊢
  have h1 := hs1r s1 rfl
  have hs2r : ∀ s2, s2 = writeRegister (readRegister s1 REG_MODEM_CONFIG_2).2 REG_MODEM_CONFIG_2
        (((readRegister s1 REG_MODEM_CONFIG_2).1 &&& 0x0f) ||| ((c <<< 4) &&& 0xf0)) →
      s2.chip.regs = store s1.chip.regs REG_MODEM_CONFIG_2
        (16 * c + s.chip.regs REG_MODEM_CONFIG_2 % 16) := by
    intro s2 h
    have e : (16 * c + s.chip.regs 30 % 256 % 16) % 256 = 16 * c + s.chip.regs 30 % 16 := by
      omega
    rw [h, sf_nibble c (by omega)]
    simp [readRegister_reg, writeRegister_reg, REG_MODEM_CONFIG_2, nibble_merge, h1, store,
      REG_DETECTION_OPTIMIZE, REG_DETECTION_THRESHOLD, e]
  generalize writeRegister (readRegister s1 REG_MODEM_CONFIG_2).2 REG_MODEM_CONFIG_2
        (((readRegister s1 REG_MODEM_CONFIG_2).1 &&& 0x0f) ||| ((c <<< 4) &&& 0xf0)) = s2 at hs2r ⊢
  have h2 := hs2r s2 rfl
  have hbw2 : bwField s2.chip = bwField s.chip := by
    simp [bwField, h2, h1, store, REG_MODEM_CONFIG_1, REG_MODEM_CONFIG_2,
      REG_DETECTION_OPTIMIZE, REG_DETECTION_THRESHOLD]
  have hsf2 : sfField s2.chip = c := by
    simp only [sfField, h2, store, if_true]; omega
  have hdiv : ldoDivisor s2.chip ≠ 0 := by
    rw [ldoDivisor, hbw2, hsf2]
    exact ladder_divisor_ne_zero _ _ (by omega) h12
  obtain ⟨s3, hs3, hr3, -⟩ := setLdoFlag_spec s2 hdiv
  refine ⟨{ s3 with _datarate := c % 256 }, by rw [hs3]; rfl, ?_, ?_, ?_, ?_⟩
  · simp [hr3, h2, store, REG_MODEM_CONFIG_2, REG_MODEM_CONFIG_3]
  · show c % 256 = c
    omega
  · simp [hr3, h2, h1, store, REG_MODEM_CONFIG_2, REG_MODEM_CONFIG_3,
      REG_DETECTION_OPTIMIZE, REG_DETECTION_THRESHOLD]
  · simp [hr3, h2, h1, store, REG_MODEM_CONFIG_2, REG_MODEM_CONFIG_3,
      REG_DETECTION_OPTIMIZE, REG_DETECTION_THRESHOLD]

/-! ## Frequency word -/

theorem frfOf_nonneg (n : Nat) (h : n < 2 ^ 45) : frfOf (n : Int) = n * 524288 / 32000000 := by
  have e : ((n : Int) % (2 ^ 64 : Int)).toNat = n := by
    norm_num
    omega
  have h2 : n * 524288 < 2 ^ 64 := by omega
  unfold frfOf
  rw [e, Nat.shiftLeft_eq]
  norm_num
  rw [Nat.mod_eq_of_lt (by omega)]

theorem setFrequency_regs (s : LoRaPort) (frequency : Int) :
    (setFrequency s frequency).chip.regs REG_FRF_MSB = frfOf frequency / 65536 % 256 ∧
      (setFrequency s frequency).chip.regs REG_FRF_MID = frfOf frequency / 256 % 256 ∧
      (setFrequency s frequency).chip.regs REG_FRF_LSB = frfOf frequency % 256 := by
  simp [setFrequency, writeRegister_reg, REG_FRF_MSB, REG_FRF_MID, REG_FRF_LSB, store,
    Nat.shiftRight_eq_div_pow]

/-! ## Stream access -/

theorem available_fst (s : LoRaPort) : (available s).1 = availableOf s := by
  simp [available, availableOf, readRegister_reg, REG_RX_NB_BYTES]

theorem available_snd (s : LoRaPort) :
    (available s).2 =
      { s with trace := .ss HIGH :: .transfer REG_RX_NB_BYTES 0 :: .ss LOW :: s.trace } := by
  simp [available, readRegister_reg, REG_RX_NB_BYTES]

theorem read_fst (s : LoRaPort) :
    (read s).1 = if availableOf s = 0 then -1
      else ((s.chip.fifo (s.chip.regs REG_FIFO_ADDR_PTR) % 256 : Nat) : Int) := by
  by_cases h0 : availableOf s = 0 <;>
    simp [read, available_fst, available_snd, h0, readRegister_fifo, toInt16_mod, REG_FIFO,
      REG_FIFO_ADDR_PTR]

theorem read_packetIndex (s : LoRaPort) :
    (read s).2._packetIndex =
      if availableOf s = 0 then s._packetIndex else (s._packetIndex + 1) % 65536 := by
  by_cases h0 : availableOf s = 0 <;>
    simp [read, available_fst, available_snd, h0, readRegister_fifo, REG_FIFO]

theorem peek_fst (s : LoRaPort) :
    (peek s).1 = if availableOf s = 0 then -1
      else ((s.chip.fifo (s.chip.regs REG_FIFO_ADDR_PTR) % 256 : Nat) : Int) := by
  by_cases h0 : availableOf s = 0 <;>
    simp [peek, available_fst, available_snd, h0, readRegister_fifo, readRegister_reg, REG_FIFO,
      REG_FIFO_ADDR_PTR, toInt16_mod]

theorem peek_packetIndex (s : LoRaPort) : (peek s).2._packetIndex = s._packetIndex := by
  by_cases h0 : availableOf s = 0 <;>
    simp [peek, available_fst, available_snd, h0, readRegister_fifo, readRegister_reg, REG_FIFO,
      writeRegister_reg, REG_FIFO_ADDR_PTR]

theorem peek_chip (s : LoRaPort) (hp : s.chip.regs REG_FIFO_ADDR_PTR < 256) :
    (peek s).2.chip = s.chip := by
  have e : store (store s.chip.regs 13 ((s.chip.regs 13 + 1) % 256)) 13 (s.chip.regs 13 % 256)
      = s.chip.regs := by
    funext a
    simp only [store, REG_FIFO_ADDR_PTR] at hp ⊢
    split
    · subst a; omega
    · rfl
  by_cases h0 : availableOf s = 0 <;>
    simp [peek, available_fst, available_snd, h0, readRegister_fifo, readRegister_reg, REG_FIFO,
      writeRegister_reg, REG_FIFO_ADDR_PTR, store, e]

/-! ## Transmit start and start-up -/

theorem isTransmitting_busy (s : LoRaPort) (h : s.chip.regs REG_OP_MODE % 256 % 4 = 3) :
    isTransmitting s =
      (true, { s with trace := .ss HIGH :: .transfer REG_OP_MODE 0 :: .ss LOW :: s.trace }) := by
  simp only [REG_OP_MODE] at h
  simp [isTransmitting, readRegister_reg, REG_OP_MODE, and_mode_tx, h, MODE_TX]

theorem isTransmitting_free (s : LoRaPort) (h : s.chip.regs REG_OP_MODE % 256 % 4 ≠ 3) :
    (isTransmitting s).1 = false ∧
      ∀ a, a ≠ REG_IRQ_FLAGS → (isTransmitting s).2.chip.regs a = s.chip.regs a := by
  simp only [REG_OP_MODE] at h
  by_cases hq : (s.chip.regs 18 % 256) &&& IRQ_TX_DONE_MASK = 0
  · simp [isTransmitting, readRegister_reg, REG_OP_MODE, REG_IRQ_FLAGS, and_mode_tx, h, MODE_TX,
      hq]
  · refine ⟨?_, fun a ha => ?_⟩
    · simp [isTransmitting, readRegister_reg, REG_OP_MODE, REG_IRQ_FLAGS, and_mode_tx, h,
        MODE_TX, hq]
    · simp only [REG_IRQ_FLAGS] at ha
      simp [isTransmitting, readRegister_reg, writeRegister_irq, REG_OP_MODE, REG_IRQ_FLAGS,
        and_mode_tx, h, MODE_TX, hq, store, ha]

theorem beginPacket_busy (s : LoRaPort) (implicitHeader : Bool)
    (h : s.chip.regs REG_OP_MODE % 256 % 4 = 3) :
    beginPacket s implicitHeader =
      (0, { s with trace := .ss HIGH :: .transfer REG_OP_MODE 0 :: .ss LOW :: s.trace }) := by
  simp [beginPacket, isTransmitting_busy s h]

theorem beginPacket_free (s : LoRaPort) (implicitHeader : Bool)
    (h : s.chip.regs REG_OP_MODE % 256 % 4 ≠ 3) :
    (beginPacket s implicitHeader).1 = 1 ∧
      (beginPacket s implicitHeader).2.chip.regs REG_OP_MODE = 0x81 ∧
      (beginPacket s implicitHeader).2.chip.regs REG_MODEM_CONFIG_1 % 2
        = (if implicitHeader = true then 1 else 0) ∧
      (beginPacket s implicitHeader).2.chip.regs REG_FIFO_ADDR_PTR = 0 ∧
      (beginPacket s implicitHeader).2.chip.regs REG_PAYLOAD_LENGTH = 0 := by
  obtain ⟨h1, h2⟩ := isTransmitting_free s h
  have hx : (isTransmitting s).2.chip.regs 29 % 256 < 256 := by omega
  cases implicitHeader <;>
    simp [beginPacket, h1, lora_idle, explicitHeaderMode, implicitHeaderMode, readRegister_reg,
      writeRegister_reg, REG_OP_MODE, REG_MODEM_CONFIG_1, REG_FIFO_ADDR_PTR, REG_PAYLOAD_LENGTH,
      store, MODE_LONG_RANGE_MODE, MODE_STDBY, header_bit_set _ hx, header_bit_clear _ hx]

theorem begin_rejected (s : LoRaPort) (frequency : Int)
    (h : s.chip.regs REG_VERSION % 256 ≠ 0x12) :
    begin s frequency =
      (0, { s with
        trace := .ss HIGH :: .transfer REG_VERSION 0 :: .ss LOW :: .wait_us 10000 ::
          .reset HIGH :: .wait_us 10000 :: .reset LOW :: .ss HIGH :: s.trace }) := by
  simp only [REG_VERSION] at h
  simp [begin, LoRaPort.emit, readRegister_reg, REG_VERSION, h]

theorem begin_accepted (s : LoRaPort) (frequency : Int)
    (h : s.chip.regs REG_VERSION % 256 = 0x12) :
    (begin s frequency).1 = 1 ∧
      lastWritten (begin s frequency).2.trace REG_OP_MODE = some 0x81 ∧
      (begin s frequency).2.chip.regs REG_OP_MODE = 0x81 := by
  simp only [REG_VERSION] at h
  simp [begin, LoRaPort.emit, readRegister_reg, writeRegister_reg, REG_VERSION, h, lora_sleep,
    lora_idle, setFrequency, setTxPower, setOCP, REG_OP_MODE, REG_FRF_MSB, REG_FRF_MID,
    REG_FRF_LSB, REG_FIFO_TX_BASE_ADDR, REG_FIFO_RX_BASE_ADDR, REG_LNA, REG_MODEM_CONFIG_3,
    REG_PA_DAC, REG_OCP, REG_PA_CONFIG, PA_OUTPUT_RFO_PIN, PA_OUTPUT_PA_BOOST_PIN,
    MODE_LONG_RANGE_MODE, MODE_STDBY, MODE_SLEEP, lastWritten, registerWrites, store]

/-! ## What `write` and `parsePacket` do on the values they read correctly -/

theorem writeRegister_fifo (s : LoRaPort) (v : Nat) :
    writeRegister s 0 v =
      { s with
        chip := {
          regs := store s.chip.regs 0x0d ((s.chip.regs 0x0d + 1) % 256),
          fifo := store s.chip.fifo (s.chip.regs 0x0d) (v % 256) },
        trace := .ss HIGH :: .transfer 0x80 (v % 256) :: .ss LOW :: s.trace } := by
  simp [writeRegister, singleTransfer, Chip.exchange, LoRaPort.emit, REG_FIFO, REG_FIFO_ADDR_PTR]

theorem writeLoop_regs (buffer : List Nat) (a : Nat) (ha : a ≠ REG_FIFO_ADDR_PTR) :
    ∀ (n i : Nat) (s : LoRaPort), (writeLoop buffer i n s).chip.regs a = s.chip.regs a := by
  intro n
  induction n with
  | zero => intro i s; rfl
  | succ n ih =>
    intro i s
    simp only [REG_FIFO_ADDR_PTR] at ha
    rw [writeLoop, ih]
    simp [REG_FIFO, writeRegister_fifo, store, ha]

theorem writeLoop_fifoWrites (buffer : List Nat) :
    ∀ (n i : Nat) (s : LoRaPort),
      fifoWrites (writeLoop buffer i n s).trace = fifoWrites s.trace + n := by
  intro n
  induction n with
  | zero => intro i s; rfl
  | succ n ih =>
    intro i s
    rw [writeLoop, ih]
    simp [REG_FIFO, writeRegister_fifo, fifoWrites, registerWrites]
    omega

theorem fifoWrites_other (t : List Event) (a v : Nat)
    (h : ¬ (a / 128 % 2 = 1 ∧ a % 128 = 0)) :
    fifoWrites (.ss HIGH :: .transfer a v :: .ss LOW :: t) = fifoWrites t := by
  by_cases h1 : a / 128 % 2 = 1
  · have h2 : ¬ a % 128 = 0 := fun h2 => h ⟨h1, h2⟩
    simp [fifoWrites, registerWrites, h1, h2, REG_FIFO, List.filter_cons]
  · simp [fifoWrites, registerWrites, h1]

/-- For a payload-length register value `c` below 128, which the `int8_t` of
`write` reads correctly, and a request of fewer than 2^31 bytes, `write`
returns `min n (255 - c)`, writes that many bytes to the FIFO and leaves the
payload-length register at `c + min n (255 - c)`. -/
theorem write_below_128 (s : LoRaPort) (buffer : List Nat) (n : Nat)
    (hc : s.chip.regs REG_PAYLOAD_LENGTH % 256 < 128) (hn : n < 2 ^ 31) :
    (write s buffer n).1 = min n (255 - s.chip.regs REG_PAYLOAD_LENGTH % 256) ∧
      fifoWrites (write s buffer n).2.trace
        = fifoWrites s.trace + min n (255 - s.chip.regs REG_PAYLOAD_LENGTH % 256) ∧
      (write s buffer n).2.chip.regs REG_PAYLOAD_LENGTH
        = s.chip.regs REG_PAYLOAD_LENGTH % 256
          + min n (255 - s.chip.regs REG_PAYLOAD_LENGTH % 256) := by
  simp only [REG_PAYLOAD_LENGTH] at hc ⊢
  obtain ⟨c, hcd⟩ : ∃ c, s.chip.regs 34 % 256 = c := ⟨_, rfl⟩
  have hrd : readRegister s 34 = (c, { s with
      trace := .ss HIGH :: .transfer 34 0 :: .ss LOW :: s.trace }) := by
    rw [readRegister_reg s 34 (by decide) (by decide), hcd]
  rw [hcd] at hc ⊢
  have h8 : toInt8 c = (c : Int) := by
    unfold toInt8
    rw [if_pos (by omega)]
    have : c % 256 = c := by omega
    rw [this]
  have hu1 : toUnsigned ((c : Int) + (n : Int)) = c + n := by
    unfold toUnsigned WORD
    norm_num at hn ⊢
    omega
  have hu2 : toUnsigned ((MAX_PKT_LENGTH : Int) - (c : Int)) = 255 - c := by
    unfold toUnsigned WORD MAX_PKT_LENGTH
    norm_num
    omega
  have hsz : (if toUnsigned ((c : Int) + (n : Int)) > MAX_PKT_LENGTH then
      toUnsigned ((MAX_PKT_LENGTH : Int) - (c : Int)) else n) = min n (255 - c) := by
    rw [hu1, hu2]
    unfold MAX_PKT_LENGTH
    split <;> omega
  have hu3 : toUnsigned ((c : Int) + ((min n (255 - c) : Nat) : Int)) = c + min n (255 - c) := by
    unfold toUnsigned WORD
    norm_num
    omega
  have hmod : (c + min n (255 - c)) % 256 = c + min n (255 - c) := by omega
  simp only [write, REG_PAYLOAD_LENGTH, hrd, h8, hsz, hu3]
  rw [writeRegister_reg _ 34 _ (by decide) (by decide) (by decide)]
  refine ⟨trivial, ?_, ?_⟩
  · show fifoWrites (.ss HIGH :: .transfer (34 + 128) _ :: .ss LOW :: _) = _
    rw [fifoWrites_other _ _ _ (by decide), writeLoop_fifoWrites]
    show fifoWrites (.ss HIGH :: .transfer 34 0 :: .ss LOW :: _) + _ = _
    rw [fifoWrites_other _ _ _ (by decide)]
  · simp [store, hmod]

set_option maxRecDepth 100000 in
theorem irq_bits_of_int8 : ∀ x < 256,
    toUnsigned (toInt8 x) &&& 0x40 = x &&& 0x40 ∧ toUnsigned (toInt8 x) &&& 0x20 = x &&& 0x20 := by
  decide

/-- The value `parsePacket` returns in every state: the length register read as
an `int8_t` when RX-done is set and payload-CRC-error is clear (the
payload-length register, just written with `size`, in implicit-header mode;
the received-byte count in explicit-header mode), and 0 otherwise. -/
theorem parsePacket_fst (s : LoRaPort) (size : Nat) :
    (parsePacket s size).1 =
      if (s.chip.regs REG_IRQ_FLAGS % 256) &&& IRQ_RX_DONE_MASK ≠ 0 ∧
          (s.chip.regs REG_IRQ_FLAGS % 256) &&& IRQ_PAYLOAD_CRC_ERROR_MASK = 0 then
        toInt8 (if size > 0 then (size &&& 0xFF) % 256 else s.chip.regs REG_RX_NB_BYTES % 256)
      else 0 := by
  have hx : s.chip.regs 18 % 256 < 256 := by omega
  obtain ⟨hb6, hb5⟩ := irq_bits_of_int8 _ hx
  by_cases hsz : size > 0 <;>
  by_cases hc : (s.chip.regs 18 % 256) &&& 0x40 ≠ 0 ∧ (s.chip.regs 18 % 256) &&& 0x20 = 0 <;>
  simp [parsePacket, readRegister_reg, writeRegister_reg, writeRegister_irq,
      implicitHeaderMode, explicitHeaderMode, lora_idle, REG_IRQ_FLAGS, REG_PAYLOAD_LENGTH,
      REG_RX_NB_BYTES, REG_MODEM_CONFIG_1, REG_FIFO_RX_CURRENT_ADDR, REG_FIFO_ADDR_PTR,
      REG_OP_MODE, IRQ_RX_DONE_MASK, IRQ_PAYLOAD_CRC_ERROR_MASK, hb6, hb5, hsz, hc, store] <;>
  split <;> rfl

/-- For a payload-length register value `c` in 128..255, which the `int8_t` of
`write` reads as `c - 256`, and a request of fewer than 2^31 bytes, `write`
accepts `n` bytes when `256 <= c + n <= 511` and `511 - c` bytes otherwise, in
both cases more than the `255 - c` bytes that are left, and the payload-length
register ends 256 below the true total. -/
theorem write_from_128 (s : LoRaPort) (buffer : List Nat) (n : Nat)
    (hc : 128 ≤ s.chip.regs REG_PAYLOAD_LENGTH % 256) (hn : n < 2 ^ 31) :
    (write s buffer n).1 =
        (if 256 ≤ s.chip.regs REG_PAYLOAD_LENGTH % 256 + n ∧
            s.chip.regs REG_PAYLOAD_LENGTH % 256 + n ≤ 511 then n
          else 511 - s.chip.regs REG_PAYLOAD_LENGTH % 256) ∧
      255 - s.chip.regs REG_PAYLOAD_LENGTH % 256 < (write s buffer n).1 ∧
      fifoWrites (write s buffer n).2.trace = fifoWrites s.trace + (write s buffer n).1 ∧
      (write s buffer n).2.chip.regs REG_PAYLOAD_LENGTH + 256
        = s.chip.regs REG_PAYLOAD_LENGTH % 256 + (write s buffer n).1 := by
  simp only [REG_PAYLOAD_LENGTH] at hc ⊢
  obtain ⟨c, hcd⟩ : ∃ c, s.chip.regs 34 % 256 = c := ⟨_, rfl⟩
  have hc256 : c < 256 := by omega
  have hrd : readRegister s 34 = (c, { s with
      trace := .ss HIGH :: .transfer 34 0 :: .ss LOW :: s.trace }) := by
    rw [readRegister_reg s 34 (by decide) (by decide), hcd]
  rw [hcd] at hc ⊢
  have h8 : toInt8 c = (c : Int) - 256 := by
    unfold toInt8
    have : c % 256 = c := by omega
    rw [this, if_neg (by omega)]
  obtain ⟨k, hk⟩ : ∃ k, k = (if 256 ≤ c + n ∧ c + n ≤ 511 then n else 511 - c) := ⟨_, rfl⟩
  have hk1 : 255 - c < k := by rw [hk]; split <;> omega
  have hk2 : c + k ≤ 511 := by rw [hk]; split <;> omega
  have hsz : (if toUnsigned ((c : Int) - 256 + (n : Int)) > MAX_PKT_LENGTH then
      toUnsigned ((MAX_PKT_LENGTH : Int) - ((c : Int) - 256)) else n) = k := by
    rw [hk]
    unfold toUnsigned WORD MAX_PKT_LENGTH
    norm_num at hn ⊢
    split <;> split <;> omega
  have hu3 : toUnsigned ((c : Int) - 256 + (k : Int)) % 256 = c + k - 256 := by
    unfold toUnsigned WORD
    norm_num
    omega
  simp only [write, REG_PAYLOAD_LENGTH, hrd, h8, hsz]
  rw [writeRegister_reg _ 34 _ (by decide) (by decide) (by decide), ← hk]
  refine ⟨rfl, hk1, ?_, ?_⟩
  · show fifoWrites (.ss HIGH :: .transfer (34 + 128) _ :: .ss LOW :: _) = _
    rw [fifoWrites_other _ _ _ (by decide), writeLoop_fifoWrites]
    show fifoWrites (.ss HIGH :: .transfer 34 0 :: .ss LOW :: _) + _ = _
    rw [fifoWrites_other _ _ _ (by decide)]
  · simp [store, hu3]
    omega

/-- The state of C1's failing input is reached by the driver itself:
`beginPacket` on the idle chip followed by a `write` of 250 bytes accepts all
250 and leaves the payload-length register at 250. -/
theorem payload_250_reached :
    (write (beginPacket LoRaPort.idle false).2 (List.replicate 250 0x55) 250).1 = 250 ∧
      (write (beginPacket LoRaPort.idle false).2 (List.replicate 250 0x55) 250).2.chip.regs
        REG_PAYLOAD_LENGTH = 250 := by
  have hfree : LoRaPort.idle.chip.regs REG_OP_MODE % 256 % 4 ≠ 3 := by decide
  obtain ⟨-, -, -, -, h0⟩ := beginPacket_free LoRaPort.idle false hfree
  have hc : (beginPacket LoRaPort.idle false).2.chip.regs REG_PAYLOAD_LENGTH % 256 < 128 := by
    rw [h0]; decide
  obtain ⟨h1, -, h3⟩ := write_below_128 (beginPacket LoRaPort.idle false).2
    (List.replicate 250 0x55) 250 hc (by decide)
  rw [h0] at h1 h3
  exact ⟨h1, h3⟩

/-! ## Where the integer divisions of `setLdoFlag` change the decision -/

/-- Over the ten table bandwidths and the spreading factors 6..12, the decision
`1000 / (bw / 2^sf) > 16` of `setLdoFlag`, taken with truncating divisions,
differs from the comparison `1000 * 2^sf / bw > 16` of the exact symbol
duration on six pairs (table index, spreading factor), and on each of them the
code leaves the flag off. -/
theorem ldo_truncation_pairs : ∀ i < 10, ∀ sf < 13, 6 ≤ sf →
    (decide (Int.tdiv 1000 (Int.tdiv (bandwidthOfIndex i) ((1 <<< sf : Nat) : Int)) > 16)
        ≠ decide (16 * bandwidthOfIndex i < 1000 * 2 ^ sf) ↔
      (i, sf) ∈ [(0, 7), (2, 8), (4, 9), (6, 10), (7, 11), (8, 12)]) := by
  intro i hi sf hsf h6
  interval_cases i <;> interval_cases sf <;> decide

/-! ## The interrupt handler -/

theorem callbackCalls_exchange (t : List Event) (x y a v : Nat) :
    callbackCalls (.ss x :: .transfer a v :: .ss y :: t) = callbackCalls t := by
  simp [callbackCalls]

theorem irqCleared_fields (s : LoRaPort) :
    (irqCleared s)._implicitHeaderMode = s._implicitHeaderMode ∧
      (irqCleared s)._onReceive = s._onReceive ∧
      (irqCleared s)._onTxDone = s._onTxDone ∧
      (∀ a, a ≠ REG_IRQ_FLAGS → (irqCleared s).chip.regs a = s.chip.regs a) ∧
      callbackCalls (irqCleared s).trace = callbackCalls s.trace := by
  refine ⟨?_, ?_, ?_, ?_, ?_⟩ <;>
    simp [irqCleared, readRegister_reg, writeRegister_irq, REG_IRQ_FLAGS, callbackCalls_exchange,
      store]
  intro a ha
  simp [ha]

theorem atReceiveCall_fields (s : LoRaPort) :
    (atReceiveCall s)._packetIndex = 0 ∧
      (atReceiveCall s)._onReceive = s._onReceive ∧
      callbackCalls (atReceiveCall s).trace = callbackCalls s.trace := by
  obtain ⟨h1, h2, h3, h4, h5⟩ := irqCleared_fields s
  cases hm : s._implicitHeaderMode <;>
    simp [atReceiveCall, hm, h1, h2, h5, readRegister_reg, writeRegister_reg, REG_PAYLOAD_LENGTH,
      REG_RX_NB_BYTES, REG_FIFO_RX_CURRENT_ADDR, REG_FIFO_ADDR_PTR, callbackCalls_exchange]

theorem handleDio0Rise_crc (rx : Nat → LoRaPort → LoRaPort) (tx : LoRaPort → LoRaPort)
    (s : LoRaPort)
    (h : (s.chip.regs REG_IRQ_FLAGS % 256) &&& IRQ_PAYLOAD_CRC_ERROR_MASK ≠ 0) :
    handleDio0Rise rx tx s = irqCleared s := by
  simp only [REG_IRQ_FLAGS] at h
  simp [handleDio0Rise, irqCleared, readRegister_reg, REG_IRQ_FLAGS, h]

theorem handleDio0Rise_rx (rx : Nat → LoRaPort → LoRaPort) (tx : LoRaPort → LoRaPort)
    (s : LoRaPort)
    (hcrc : (s.chip.regs REG_IRQ_FLAGS % 256) &&& IRQ_PAYLOAD_CRC_ERROR_MASK = 0)
    (hrx : (s.chip.regs REG_IRQ_FLAGS % 256) &&& IRQ_RX_DONE_MASK ≠ 0)
    (hb : s._onReceive = true) :
    handleDio0Rise rx tx s =
      writeRegister (rx (receivedLength s) (atReceiveCall s)) REG_FIFO_ADDR_PTR 0 := by
  simp only [REG_IRQ_FLAGS] at hcrc hrx
  obtain ⟨h1, h2, h3, h4, h5⟩ := irqCleared_fields s
  have hbs := (atReceiveCall_fields s).2.1
  have hL : (if (irqCleared s)._implicitHeaderMode = true then
        readRegister { irqCleared s with _packetIndex := 0 } REG_PAYLOAD_LENGTH
      else readRegister { irqCleared s with _packetIndex := 0 } REG_RX_NB_BYTES).1
      = receivedLength s := by
    rw [h1, receivedLength]
    split <;> simp [readRegister_reg, REG_PAYLOAD_LENGTH, REG_RX_NB_BYTES, REG_IRQ_FLAGS,
      h4 34 (by decide), h4 19 (by decide)]
  have e : handleDio0Rise rx tx s =
      writeRegister (if (atReceiveCall s)._onReceive = true then
        rx (if (irqCleared s)._implicitHeaderMode = true then
            readRegister { irqCleared s with _packetIndex := 0 } REG_PAYLOAD_LENGTH
          else readRegister { irqCleared s with _packetIndex := 0 } REG_RX_NB_BYTES).1
          (atReceiveCall s)
        else atReceiveCall s) REG_FIFO_ADDR_PTR 0 := by
    simp [handleDio0Rise, irqCleared, atReceiveCall, readRegister_reg, REG_IRQ_FLAGS, hcrc, hrx]
  rw [e, hbs, hb, if_pos rfl, hL]

/-! ## Time on air -/

theorem timeOnAir_mono (s : LoRaPort) (a b : Nat) (hab : a ≤ b) :
    timeOnAir s a ≤ timeOnAir s b := by
  unfold timeOnAir
  simp only []
  apply Int.floor_le_floor
  have hts : (0 : ℚ) ≤ 1 / ((s._bandwidth : ℚ) / ((1 <<< s._datarate : Nat) : ℚ)) := by
    positivity
  have hc : (0 : ℚ) ≤ ((s._coderate + 4 : Nat) : ℚ) := by positivity
  have hd : (0 : ℚ) ≤ (((4 * (s._datarate - 0) : Nat) : Int) : ℚ) := by positivity
  have hn : (((8 * a : Nat) : Int) - ((4 * s._datarate : Nat) : Int) + 28
      + ((16 * s._crc_on : Nat) : Int) - 0 : Int)
      ≤ (((8 * b : Nat) : Int) - ((4 * s._datarate : Nat) : Int) + 28
      + ((16 * s._crc_on : Nat) : Int) - 0 : Int) := by
    push_cast
    omega
  have hq : ((((8 * a : Nat) : Int) - ((4 * s._datarate : Nat) : Int) + 28
      + ((16 * s._crc_on : Nat) : Int) - 0 : Int) : ℚ)
      ≤ ((((8 * b : Nat) : Int) - ((4 * s._datarate : Nat) : Int) + 28
      + ((16 * s._crc_on : Nat) : Int) - 0 : Int) : ℚ) := by
    exact_mod_cast hn
  have hceil := Int.ceil_le_ceil (div_le_div_of_nonneg_right hq hd)
  have hceilq : ((Int.ceil (((((8 * a : Nat) : Int) - ((4 * s._datarate : Nat) : Int) + 28
      + ((16 * s._crc_on : Nat) : Int) - 0 : Int) : ℚ) /
        (((4 * (s._datarate - 0) : Nat) : Int) : ℚ)) : Int) : ℚ)
      ≤ ((Int.ceil (((((8 * b : Nat) : Int) - ((4 * s._datarate : Nat) : Int) + 28
      + ((16 * s._crc_on : Nat) : Int) - 0 : Int) : ℚ) /
        (((4 * (s._datarate - 0) : Nat) : Int) : ℚ)) : Int) : ℚ) := by
    exact_mod_cast hceil
  apply mul_le_mul_of_nonneg_right _ (by norm_num)
  apply add_le_add_left
  apply mul_le_mul_of_nonneg_right _ hts
  exact mul_le_mul_of_nonneg_right hceilq hc

theorem timeOnAir_eq_spec (s : LoRaPort) (len : Nat) (hbw : 0 < s._bandwidth) :
    timeOnAir s len =
      timeOnAirSpec s._bandwidth s._datarate s._preamble_len s._crc_on (s._coderate + 4) len := by
  unfold timeOnAir timeOnAirSpec
  simp only [Nat.shiftLeft_eq, one_mul, Nat.sub_zero, sub_zero]
  push_cast
  congr 1
  have hb : (s._bandwidth : ℚ) ≠ 0 := by positivity
  field_simp
  ring

/-! ## Binding calls -/

theorem bindCalls_append (s : LoRaPort) (l : List BindCall) (c : BindCall) :
    bindCalls s (l ++ [c]) = BindCall.run (bindCalls s l) c := by
  simp [bindCalls, List.foldl_append]

theorem run_fields (s : LoRaPort) (c : BindCall) :
    (BindCall.run s c)._onReceive = (BindCall.receiveArg c).getD s._onReceive ∧
      (BindCall.run s c)._onTxDone = (BindCall.txDoneArg c).getD s._onTxDone ∧
      (BindCall.run s c)._dio0 = BindCall.arg c := by
  cases c with
  | onReceive cb => cases cb <;> simp [BindCall.run, onReceive, BindCall.receiveArg,
      BindCall.txDoneArg, BindCall.arg]
  | onTxDone cb => cases cb <;> simp [BindCall.run, onTxDone, BindCall.receiveArg,
      BindCall.txDoneArg, BindCall.arg]

theorem bindCalls_fields (s : LoRaPort) (calls : List BindCall) :
    (bindCalls s calls)._onReceive
        = ((calls.filterMap BindCall.receiveArg).getLast?).getD s._onReceive ∧
      (bindCalls s calls)._onTxDone
        = ((calls.filterMap BindCall.txDoneArg).getLast?).getD s._onTxDone ∧
      (bindCalls s calls)._dio0 = ((calls.getLast?).map BindCall.arg).getD s._dio0 := by
  induction calls using List.reverseRecOn with
  | nil => simp [bindCalls]
  | append_singleton l c ih =>
    obtain ⟨h1, h2, h3⟩ := ih
    obtain ⟨r1, r2, r3⟩ := run_fields (bindCalls s l) c
    rw [bindCalls_append]
    refine ⟨?_, ?_, ?_⟩
    · rw [r1, h1]
      cases c <;> simp [BindCall.receiveArg, List.filterMap_append]
    · rw [r2, h2]
      cases c <;> simp [BindCall.txDoneArg, List.filterMap_append]
    · rw [r3]
      simp

/-! ## Coding rate -/

set_option maxRecDepth 100000 in
theorem coding_rate_merge : ∀ x < 256, ∀ cr < 5,
    ((x &&& 0xf1) ||| (cr <<< 1)) % 256 / 2 % 8 = cr ∧
      ((x &&& 0xf1) ||| (cr <<< 1)) % 256 / 16 = x / 16 ∧
      ((x &&& 0xf1) ||| (cr <<< 1)) % 256 % 2 = x % 2 := by
  decide

theorem setCodingRate4_spec (s : LoRaPort) (denominator : Nat) :
    (setCodingRate4 s denominator)._coderate = max 5 (min denominator 8) - 4 ∧
      (setCodingRate4 s denominator).chip.regs REG_MODEM_CONFIG_1 =
        ((s.chip.regs REG_MODEM_CONFIG_1 % 256 &&& 0xf1)
          ||| ((max 5 (min denominator 8) - 4) <<< 1)) % 256 := by
  have hc : (if denominator < 5 then 5 else if denominator > 8 then 8 else denominator)
      = max 5 (min denominator 8) := by
    split_ifs <;> omega
  have hm : (max 5 (min denominator 8) - 4) % 256 = max 5 (min denominator 8) - 4 := by omega
  simp [setCodingRate4, hc, hm, readRegister_reg, writeRegister_reg, REG_MODEM_CONFIG_1, store]

/-! ## Header-mode bit -/

set_option maxRecDepth 100000 in
theorem header_clear_frame : ∀ x < 256,
    (x &&& 0xfe) % 256 / 2 = x / 2 ∧ (x &&& 0xfe) % 256 % 2 = 0 := by
  decide

set_option maxRecDepth 100000 in
theorem header_set_frame : ∀ x < 256,
    (x ||| 0x01) % 256 / 2 = x / 2 ∧ (x ||| 0x01) % 256 % 2 = 1 := by
  decide

theorem explicitHeaderMode_reg (s : LoRaPort) :
    (explicitHeaderMode s).chip.regs REG_MODEM_CONFIG_1
      = (s.chip.regs REG_MODEM_CONFIG_1 % 256 &&& 0xfe) % 256 := by
  simp [explicitHeaderMode, readRegister_reg, writeRegister_reg, REG_MODEM_CONFIG_1, store]

theorem implicitHeaderMode_reg (s : LoRaPort) :
    (implicitHeaderMode s).chip.regs REG_MODEM_CONFIG_1
      = (s.chip.regs REG_MODEM_CONFIG_1 % 256 ||| 0x01) % 256 := by
  simp [implicitHeaderMode, readRegister_reg, writeRegister_reg, REG_MODEM_CONFIG_1, store]

/-! ## The divisor of `setLdoFlag` -/

theorem ladder_divisor_pos (i sf : Nat) (hi : i < 10) (h6 : 6 ≤ sf) (h12 : sf ≤ 12) :
    1 ≤ Int.tdiv (bandwidthOfIndex i) ((1 <<< sf : Nat) : Int) := by
  interval_cases i <;> interval_cases sf <;> decide

theorem getters_read_fields (s : LoRaPort) :
    (getSignalBandwidth s).1 = bandwidthOfIndex (bwField s.chip) ∧
      (getSpreadingFactor (getSignalBandwidth s).2).1 = sfField s.chip := by
  have hb : (s.chip.regs 29 % 256) >>> 4 % 256 = s.chip.regs 29 % 256 / 16 := by
    simp only [Nat.shiftRight_eq_div_pow]; omega
  have hs : (s.chip.regs 30 % 256) >>> 4 = s.chip.regs 30 % 256 / 16 := by
    simp only [Nat.shiftRight_eq_div_pow]
  simp [getSignalBandwidth, getSpreadingFactor, readRegister_reg, REG_MODEM_CONFIG_1,
    REG_MODEM_CONFIG_2, bwField, sfField, hb, hs]

/-! ## Cached bandwidth -/

theorem setLdoFlag_bandwidth (s s' : LoRaPort) (h : setLdoFlag s = some s') :
    s'._bandwidth = s._bandwidth := by
  unfold setLdoFlag at h
  simp only [] at h
  split at h
  · cases h
  · cases h
    simp [getSignalBandwidth, getSpreadingFactor, readRegister_reg, writeRegister_reg,
      REG_MODEM_CONFIG_1, REG_MODEM_CONFIG_2, REG_MODEM_CONFIG_3]

theorem setSignalBandwidth_bandwidth (s s' : LoRaPort) (sbw : Nat)
    (h : setSignalBandwidth s sbw = some s') :
    s'._bandwidth = (bandwidthLadder sbw).2.getD s._bandwidth := by
  unfold setSignalBandwidth at h
  rw [setLdoFlag_bandwidth _ _ h]
  simp [readRegister_reg, writeRegister_reg, REG_MODEM_CONFIG_1]

theorem bandwidthLadder_assigns (sbw : Nat) (h : 7800 < sbw) :
    (bandwidthLadder sbw).2 = some (bandwidthTable.getD (bandwidthLadder sbw).1 0) := by
  unfold bandwidthLadder
  repeat' split
  all_goals first | omega | simp [bandwidthTable]

/-! ## Over-current trim -/

theorem ocpTrimWritten_eq (s : LoRaPort) (mA : Nat) :
    ocpTrimWritten s mA =
      (0x20 ||| (0x1F &&&
        (if mA ≤ 120 then toUnsigned (Int.tdiv ((mA : Int) - 45) 5) % 256
          else if mA ≤ 240 then ((mA + 30) / 10) % 256
          else 27))) % 256 % 32 := by
  simp [ocpTrimWritten, setOCP, writeRegister_reg, REG_OCP, store]

set_option maxRecDepth 100000 in
theorem ocp_trim_values : ∀ mA : Nat, mA < 256 →
    (0x20 ||| (0x1F &&&
        (if mA ≤ 120 then toUnsigned (Int.tdiv ((mA : Int) - 45) 5) % 256
          else if mA ≤ 240 then ((mA + 30) / 10) % 256
          else 27))) % 256 % 32 =
      (if mA ≤ 40 then 32 - (45 - mA) / 5
        else if mA ≤ 120 then (mA - 45) / 5
        else if mA ≤ 240 then (mA + 30) / 10
        else 27) := by
  decide

/-- From 41 mA upwards the trim that `setOCP` programs never decreases with the
request; below 41 mA the subtraction `mA - 45` is negative and wraps in the
`uint8_t`, giving trims 23..31. -/
theorem ocpTrimWritten_mono_from_41 (s t : LoRaPort) (a b : Nat) (ha : 41 ≤ a) (hab : a ≤ b)
    (hb : b < 256) : ocpTrimWritten s a ≤ ocpTrimWritten t b := by
  rw [ocpTrimWritten_eq, ocpTrimWritten_eq, ocp_trim_values a (by omega), ocp_trim_values b hb]
  split_ifs <;> omega

/-! ## Coding rate and cached bandwidth as `timeOnAir` sees them -/

theorem setCodingRate4_config (s : LoRaPort) (denominator : Nat) :
    (setCodingRate4 s denominator)._bandwidth = s._bandwidth ∧
      (setCodingRate4 s denominator)._datarate = s._datarate ∧
      (setCodingRate4 s denominator)._preamble_len = s._preamble_len ∧
      (setCodingRate4 s denominator)._crc_on = s._crc_on ∧
      (setCodingRate4 s denominator)._coderate + 4 = max 5 (min denominator 8) := by
  have hc := (setCodingRate4_spec s denominator).1
  refine ⟨?_, ?_, ?_, ?_, by rw [hc]; omega⟩ <;>
    simp [setCodingRate4, readRegister_reg, writeRegister_reg, REG_MODEM_CONFIG_1]

theorem ceil_example :
    Int.ceil (((8 * ((10 : Nat) : Int) - 4 * ((7 : Nat) : Int) + 28
        + 16 * ((0 : Nat) : Int) : Int) : ℚ) / (4 * ((7 : Nat) : ℚ))) = 3 := by
  rw [Int.ceil_eq_iff]
  norm_num

/-- The formula for the chip's reset configuration (125 kHz, spreading factor
7, preamble 8, no CRC, coding rate 4/5) and a 10-byte payload: 27 ms. -/
theorem timeOnAirSpec_rate_4_5 : timeOnAirSpec 125000 7 8 0 5 10 = 27 := by
  unfold timeOnAirSpec
  rw [ceil_example, Int.floor_eq_iff]
  norm_num

/-- What `timeOnAir` returns for the same payload on the freshly constructed
driver, whose stored coding rate is 5: 40 ms. -/
theorem timeOnAir_fresh_value : timeOnAir LoRaPort.idle 10 = 40 := by
  rw [timeOnAir_eq_spec _ _ (by decide)]
  show timeOnAirSpec 125000 7 8 0 9 10 = 40
  unfold timeOnAirSpec
  rw [ceil_example, Int.floor_eq_iff]
  norm_num

theorem bandwidthOfIndex_table (i : Nat) (hi : i < 10) :
    bandwidthOfIndex i = ((bandwidthTable.getD i 0 : Nat) : Int) := by
  interval_cases i <;> rfl

/-- For a request above 7800 Hz, in a state whose spreading-factor field is at
most 12, `setSignalBandwidth` returns and the cached bandwidth is the table
entry whose index it wrote, which is what `getSignalBandwidth` then returns. -/
theorem setSignalBandwidth_cache_above_7800 (s : LoRaPort) (sbw : Nat)
    (hsf : sfField s.chip ≤ 12) (h : 7800 < sbw) :
    ∃ s', setSignalBandwidth s sbw = some s' ∧
      s'._bandwidth = bandwidthTable.getD (bwField s'.chip) 0 ∧
      ((s'._bandwidth : Nat) : Int) = (getSignalBandwidth s').1 := by
  obtain ⟨s', hs', hr⟩ := setSignalBandwidth_spec s sbw hsf
  have hi := bandwidthLadder_lt sbw
  have hbwf : bwField s'.chip = (bandwidthLadder sbw).1 := by
    unfold bwField
    rw [hr]
    omega
  have hcache : s'._bandwidth = bandwidthTable.getD (bandwidthLadder sbw).1 0 := by
    rw [setSignalBandwidth_bandwidth s s' sbw hs', bandwidthLadder_assigns sbw h]
    rfl
  refine ⟨s', hs', by rw [hbwf]; exact hcache, ?_⟩
  rw [(getters_read_fields s').1, hbwf, bandwidthOfIndex_table _ hi, hcache]

set_option maxRecDepth 100000 in
theorem addr_bit7 : ∀ a < 256, (a &&& 0x7f) / 128 % 2 = 0 ∧ (a ||| 0x80) / 128 % 2 = 1 := by
  decide

/-! ## The claims -/

/-- Claim C1, evaluated at a failing input.  With the payload-length register
at 250, `write` of a ten-byte buffer reads the register into an `int8_t` as -6,
finds `-6 + 10 = 4` not greater than 255 and truncates nothing: it returns 10
where the claim gives `min 10 (255 - 250) = 5`, writes ten bytes to the FIFO
and leaves the payload-length register at 4 where the claim gives 255. -/
theorem write_overruns_max_packet_length :
    LoRaPort.nearlyFull.chip.regs REG_PAYLOAD_LENGTH = 250 ∧
      (write LoRaPort.nearlyFull [1, 2, 3, 4, 5, 6, 7, 8, 9, 10] 10).1 = 10 ∧
      min 10 (255 - 250) = 5 ∧
      fifoWrites (write LoRaPort.nearlyFull [1, 2, 3, 4, 5, 6, 7, 8, 9, 10] 10).2.trace
        = fifoWrites LoRaPort.nearlyFull.trace + 10 ∧
      (write LoRaPort.nearlyFull [1, 2, 3, 4, 5, 6, 7, 8, 9, 10] 10).2.chip.regs
        REG_PAYLOAD_LENGTH = 4 := by
  decide

/-- Claim C2, evaluated at a failing input.  With RX-done set, payload-CRC-error
clear and a received-byte count of 200, `parsePacket` in explicit-header mode
stores the count in an `int8_t` and returns -56 where the claim gives 200. -/
theorem parsePacket_length_read_as_signed :
    LoRaPort.packet200.chip.regs REG_IRQ_FLAGS &&& IRQ_RX_DONE_MASK ≠ 0 ∧
      LoRaPort.packet200.chip.regs REG_IRQ_FLAGS &&& IRQ_PAYLOAD_CRC_ERROR_MASK = 0 ∧
      LoRaPort.packet200.chip.regs REG_RX_NB_BYTES = 200 ∧
      (parsePacket LoRaPort.packet200 0).1 = -56 := by
  decide

/-- Claim C3: for every requested bandwidth, in a state whose spreading-factor
field is at most 12 (so that the division of `setLdoFlag` is defined),
`setSignalBandwidth` returns and leaves in bits 7-4 of modem-config-1 the index
`i` of the smallest entry of the bandwidth table that is at least the request,
or 9 when the request exceeds every entry. -/
theorem setSignalBandwidth_selects_smallest_entry (s : LoRaPort) (sbw : Nat)
    (hsf : sfField s.chip ≤ 12) :
    ∃ s' i, setSignalBandwidth s sbw = some s' ∧
      s'.chip.regs REG_MODEM_CONFIG_1 / 16 = i ∧ i < 10 ∧
      (∀ j, j < i → bandwidthTable.getD j 0 < sbw) ∧
      (sbw ≤ bandwidthTable.getD i 0 ∨
        (i = 9 ∧ ∀ j, j < 10 → bandwidthTable.getD j 0 < sbw)) := by
  obtain ⟨s', hs', hr⟩ := setSignalBandwidth_spec s sbw hsf
  have hi := bandwidthLadder_lt sbw
  obtain ⟨hmin, hcover⟩ := bandwidthLadder_smallest sbw
  refine ⟨s', (bandwidthLadder sbw).1, hs', ?_, hi, hmin, hcover⟩
  rw [hr]
  omega

/-- Instance of C3: a request of 100 kHz on the idle chip. -/
theorem setSignalBandwidth_selects_smallest_entry_witness :
    sfField LoRaPort.idle.chip ≤ 12 ∧
      ∃ s' i, setSignalBandwidth LoRaPort.idle 100000 = some s' ∧
        s'.chip.regs REG_MODEM_CONFIG_1 / 16 = i ∧ i < 10 ∧
        (∀ j, j < i → bandwidthTable.getD j 0 < 100000) ∧
        (100000 ≤ bandwidthTable.getD i 0 ∨
          (i = 9 ∧ ∀ j, j < 10 → bandwidthTable.getD j 0 < 100000)) :=
  ⟨by decide, setSignalBandwidth_selects_smallest_entry LoRaPort.idle 100000 (by decide)⟩

/-- Claim C4: for every requested spreading factor, in a state whose bandwidth
field is a table index (so that the division of `setLdoFlag` is defined),
`setSpreadingFactor` returns; afterwards the high nibble of modem-config-2 and
the stored spreading factor both equal the request clamped to 6..12, the low
nibble of modem-config-2 is unchanged, and the detection-optimize and
detection-threshold registers hold 0xC5 and 0x0C when the clamped value is 6,
0xC3 and 0x0A otherwise. -/
theorem setSpreadingFactor_clamps (s : LoRaPort) (sf : Nat) (hbw : bwField s.chip ≤ 9) :
    ∃ s', setSpreadingFactor s sf = some s' ∧
      s'.chip.regs REG_MODEM_CONFIG_2 / 16 = max 6 (min sf 12) ∧
      s'._datarate = max 6 (min sf 12) ∧
      s'.chip.regs REG_MODEM_CONFIG_2 % 16 = s.chip.regs REG_MODEM_CONFIG_2 % 16 ∧
      s'.chip.regs REG_DETECTION_OPTIMIZE = (if max 6 (min sf 12) = 6 then 0xc5 else 0xc3) ∧
      s'.chip.regs REG_DETECTION_THRESHOLD = (if max 6 (min sf 12) = 6 then 0x0c else 0x0a) := by
  obtain ⟨s', hs', hr, hd, ho, ht⟩ := setSpreadingFactor_spec s sf hbw
  refine ⟨s', hs', ?_, hd, ?_, ho, ht⟩
  · rw [hr]; omega
  · rw [hr]; omega

/-- Instance of C4: a request of 20 on the idle chip is clamped to 12. -/
theorem setSpreadingFactor_clamps_witness :
    bwField LoRaPort.idle.chip ≤ 9 ∧
      ∃ s', setSpreadingFactor LoRaPort.idle 20 = some s' ∧
        s'.chip.regs REG_MODEM_CONFIG_2 / 16 = max 6 (min 20 12) ∧
        s'._datarate = max 6 (min 20 12) ∧
        s'.chip.regs REG_MODEM_CONFIG_2 % 16 = LoRaPort.idle.chip.regs REG_MODEM_CONFIG_2 % 16 ∧
        s'.chip.regs REG_DETECTION_OPTIMIZE = (if max 6 (min 20 12) = 6 then 0xc5 else 0xc3) ∧
        s'.chip.regs REG_DETECTION_THRESHOLD = (if max 6 (min 20 12) = 6 then 0x0c else 0x0a) :=
  ⟨by decide, setSpreadingFactor_clamps LoRaPort.idle 20 (by decide)⟩

/-- Claim C5 fails as stated: for 915 012 207 Hz the frequency word fits in 24
bits and the value recomputed from the registers is 915 012 145 Hz, which is
62 Hz below the request, more than one quantization step 32000000 / 2^19 =
61.03515625 Hz. -/
theorem setFrequency_readback_exceeds_step :
    (0 : Int) ≤ 915012207 ∧ (915012207 : Int) * 2 ^ 19 / 32000000 < 2 ^ 24 ∧
      readbackHz (setFrequency LoRaPort.idle 915012207).chip = 915012145 ∧
      ¬ (|(915012207 : ℚ) - (readbackHz (setFrequency LoRaPort.idle 915012207).chip : ℚ)|
          ≤ 32000000 / 2 ^ 19) := by
  have h : readbackHz (setFrequency LoRaPort.idle 915012207).chip = 915012145 := by decide
  refine ⟨by decide, by decide, h, ?_⟩
  rw [h]
  norm_num [abs_le]

/-- Claim C5 as amended: for every frequency `f >= 0` whose word
`frf = (f * 2^19) div 32000000` fits in 24 bits, `setFrequency` computes that
word, the three frequency registers hold it most significant byte first, and
the value recomputed from them is at most `f` and at most 62 Hz below `f`. -/
theorem setFrequency_readback_within_62 (s : LoRaPort) (f : Int) (h0 : 0 ≤ f)
    (h24 : f * 2 ^ 19 / 32000000 < 2 ^ 24) :
    (frfOf f : Int) = f * 2 ^ 19 / 32000000 ∧
      (setFrequency s f).chip.regs REG_FRF_MSB = frfOf f / 65536 ∧
      (setFrequency s f).chip.regs REG_FRF_MID = frfOf f / 256 % 256 ∧
      (setFrequency s f).chip.regs REG_FRF_LSB = frfOf f % 256 ∧
      (readbackHz (setFrequency s f).chip : Int) ≤ f ∧
      f - (readbackHz (setFrequency s f).chip : Int) ≤ 62 := by
  obtain ⟨n, rfl⟩ := Int.eq_ofNat_of_zero_le h0
  norm_num at h24
  have hn : n < 1024000062 := by omega
  have hfrf := frfOf_nonneg n (by omega)
  obtain ⟨h1, h2, h3⟩ := setFrequency_regs s (n : Int)
  rw [readbackHz, h1, h2, h3, Nat.shiftRight_eq_div_pow]
  clear h1 h2 h3
  generalize frfOf (n : Int) = w at hfrf ⊢
  have hlt : w < 16777216 := by omega
  have hdd : w / 256 / 256 = w / 65536 := by rw [Nat.div_div_eq_div_mul]
  have hcomp : w / 65536 % 256 * 65536 + w / 256 % 256 * 256 + w % 256 = w := by omega
  rw [hcomp]
  refine ⟨?_, ?_, rfl, rfl, ?_, ?_⟩
  · rw [hfrf]; norm_num
  · omega
  · norm_num
    omega
  · norm_num
    omega

/-- Instance of C5 as amended: 915 MHz on the idle chip. -/
theorem setFrequency_readback_within_62_witness :
    (0 : Int) ≤ 915000000 ∧ (915000000 : Int) * 2 ^ 19 / 32000000 < 2 ^ 24 ∧
      ((frfOf 915000000 : Int) = 915000000 * 2 ^ 19 / 32000000 ∧
        (setFrequency LoRaPort.idle 915000000).chip.regs REG_FRF_MSB
          = frfOf 915000000 / 65536 ∧
        (setFrequency LoRaPort.idle 915000000).chip.regs REG_FRF_MID
          = frfOf 915000000 / 256 % 256 ∧
        (setFrequency LoRaPort.idle 915000000).chip.regs REG_FRF_LSB
          = frfOf 915000000 % 256 ∧
        (readbackHz (setFrequency LoRaPort.idle 915000000).chip : Int) ≤ 915000000 ∧
        915000000 - (readbackHz (setFrequency LoRaPort.idle 915000000).chip : Int) ≤ 62) :=
  ⟨by decide, by decide,
    setFrequency_readback_within_62 LoRaPort.idle 915000000 (by decide) (by decide)⟩

/-- Claim C6, evaluated at a failing input.  On the idle chip (125 kHz),
`setSpreadingFactor(11)` returns with spreading factor 11 and bandwidth 125000
Hz in the registers and bit 3 of modem-config-3 clear, although the symbol
duration 1000 * 2^11 / 125000 = 16.384 ms is greater than 16: the two integer
divisions of `setLdoFlag` give 125000 / 2048 = 61 and 1000 / 61 = 16. -/
theorem setLdoFlag_truncates_symbol_duration :
    (setSpreadingFactor LoRaPort.idle 11).map
        (fun s => (sfField s.chip, bandwidthOfIndex (bwField s.chip),
          s.chip.regs REG_MODEM_CONFIG_3 / 8 % 2)) = some (11, 125000, 0) ∧
      (16 : ℚ) < 1000 * 2 ^ 11 / 125000 := by
  refine ⟨by decide, by norm_num⟩

/-- Claim C7: in every state `read` returns -1 exactly when `available` returns
0, and so does `peek`; a result other than -1 is a byte value in 0..255, and
`read` then advances `_packetIndex` by one in its `uint16_t` arithmetic, which
is the plain successor whenever the cursor is below 65535. -/
theorem read_peek_sentinel (s : LoRaPort) :
    ((read s).1 = -1 ↔ (available s).1 = 0) ∧
      ((peek s).1 = -1 ↔ (available s).1 = 0) ∧
      ((read s).1 ≠ -1 →
        0 ≤ (read s).1 ∧ (read s).1 ≤ 255 ∧
          (read s).2._packetIndex = (s._packetIndex + 1) % 65536 ∧
          (s._packetIndex < 65535 → (read s).2._packetIndex = s._packetIndex + 1)) ∧
      ((peek s).1 ≠ -1 → 0 ≤ (peek s).1 ∧ (peek s).1 ≤ 255) := by
  rw [read_fst, peek_fst, read_packetIndex, available_fst]
  by_cases h : availableOf s = 0
  · simp [h]
  · rw [if_neg h, if_neg h]
    refine ⟨⟨fun h' => by omega, fun h' => absurd h' h⟩,
      ⟨fun h' => by omega, fun h' => absurd h' h⟩, fun _ => ⟨by omega, by omega, rfl, ?_⟩,
      fun _ => ⟨by omega, by omega⟩⟩
    intro hlt
    omega

/-- Claim C8: over the chip model in which reading the FIFO register returns
the byte at the FIFO address pointer and then increments the pointer, in every
state whose pointer register holds a byte, `peek` leaves `_packetIndex` and the
FIFO address pointer as they were, a second `peek` returns what the first
returned, and a `read` that follows a `peek` returns what the `peek`
returned. -/
theorem peek_restores_pointer (s : LoRaPort) (hp : s.chip.regs REG_FIFO_ADDR_PTR < 256) :
    (peek s).2._packetIndex = s._packetIndex ∧
      (peek s).2.chip.regs REG_FIFO_ADDR_PTR = s.chip.regs REG_FIFO_ADDR_PTR ∧
      (peek (peek s).2).1 = (peek s).1 ∧
      (read (peek s).2).1 = (peek s).1 := by
  have hc := peek_chip s hp
  have hi := peek_packetIndex s
  have ha : availableOf (peek s).2 = availableOf s := by
    unfold availableOf
    rw [hc, hi]
  refine ⟨hi, by rw [hc], ?_, ?_⟩
  · rw [peek_fst (peek s).2, peek_fst s, ha, hc]
  · rw [read_fst (peek s).2, peek_fst s, ha, hc]

/-- Instance of C8: three received bytes waiting, the first of them 0x41. -/
theorem peek_restores_pointer_witness :
    LoRaPort.received3.chip.regs REG_FIFO_ADDR_PTR < 256 ∧
      (peek LoRaPort.received3).1 = 0x41 ∧
      ((peek LoRaPort.received3).2._packetIndex = LoRaPort.received3._packetIndex ∧
        (peek LoRaPort.received3).2.chip.regs REG_FIFO_ADDR_PTR
          = LoRaPort.received3.chip.regs REG_FIFO_ADDR_PTR ∧
        (peek (peek LoRaPort.received3).2).1 = (peek LoRaPort.received3).1 ∧
        (read (peek LoRaPort.received3).2).1 = (peek LoRaPort.received3).1) :=
  ⟨by decide, by decide, peek_restores_pointer LoRaPort.received3 (by decide)⟩

/-- Claim C9: for every frequency and every value `v` read from the
chip-version register, if `v` is not 0x12 then `begin` returns 0, the register
file is untouched and its only bus exchange is the read of the version
register, so that it adds no register write; if `v` is 0x12 then `begin`
returns 1 and the last value written to the operating-mode register is 0x81,
LoRa mode with standby. -/
theorem begin_checks_version (s : LoRaPort) (frequency : Int) :
    if s.chip.regs REG_VERSION % 256 ≠ 0x12 then
      (begin s frequency).1 = 0 ∧
        (begin s frequency).2.chip = s.chip ∧
        (begin s frequency).2.trace =
          .ss HIGH :: .transfer REG_VERSION 0 :: .ss LOW :: .wait_us 10000 :: .reset HIGH ::
            .wait_us 10000 :: .reset LOW :: .ss HIGH :: s.trace ∧
        registerWrites (begin s frequency).2.trace = registerWrites s.trace
    else
      (begin s frequency).1 = 1 ∧
        lastWritten (begin s frequency).2.trace REG_OP_MODE
          = some (MODE_LONG_RANGE_MODE ||| MODE_STDBY) ∧
        MODE_LONG_RANGE_MODE ||| MODE_STDBY = 0x81 := by
  split
  · next h =>
    rw [begin_rejected s frequency h]
    simp [registerWrites, REG_VERSION]
  · next h =>
    have h' : s.chip.regs REG_VERSION % 256 = 0x12 := by omega
    obtain ⟨h1, h2, -⟩ := begin_accepted s frequency h'
    exact ⟨h1, h2, by decide⟩

/-- Claim C10 fails as stated: with the operating-mode register at 0x87 the
mode bits are 7, not 3, and `beginPacket` still returns 0, because
`isTransmitting` tests `(mode & 0x03) == 0x03`. -/
theorem beginPacket_fails_in_mode_7 :
    ¬ ((beginPacket LoRaPort.detecting false).1 = 0 ↔
        LoRaPort.detecting.chip.regs REG_OP_MODE % 8 = MODE_TX) := by
  decide

/-- Claim C10 as amended: in every register state, `beginPacket(implicit)`
returns 0 exactly when bits 1 and 0 of the operating-mode register are both
set (mode bits 3, Tx, or 7), and then writes no register; in every other state
it returns 1 and leaves the operating-mode register at 0x81 (LoRa, standby),
bit 0 of modem-config-1 equal to `implicit`, and the FIFO address pointer and
the payload-length register at 0. -/
theorem beginPacket_fails_iff_low_mode_bits_set (s : LoRaPort) (implicitHeader : Bool) :
    if s.chip.regs REG_OP_MODE % 256 % 4 = 3 then
      (beginPacket s implicitHeader).1 = 0 ∧
        (beginPacket s implicitHeader).2.chip = s.chip ∧
        registerWrites (beginPacket s implicitHeader).2.trace = registerWrites s.trace
    else
      (beginPacket s implicitHeader).1 = 1 ∧
        (beginPacket s implicitHeader).2.chip.regs REG_OP_MODE = 0x81 ∧
        (beginPacket s implicitHeader).2.chip.regs REG_MODEM_CONFIG_1 % 2
          = (if implicitHeader = true then 1 else 0) ∧
        (beginPacket s implicitHeader).2.chip.regs REG_FIFO_ADDR_PTR = 0 ∧
        (beginPacket s implicitHeader).2.chip.regs REG_PAYLOAD_LENGTH = 0 := by
  split
  · next h =>
    rw [beginPacket_busy s implicitHeader h]
    simp [registerWrites, REG_OP_MODE]
  · next h =>
    exact beginPacket_free s implicitHeader h

/-- Claim C11: for every state, every length in the length register (a value
in 0..255) and every pair of callbacks.  When payload-CRC-error is set,
`handleDio0Rise` only reads and clears the IRQ flags and invokes no callback.
When it is clear, RX-done is set and a receive callback is bound, the handler
is the composition of its register accesses with one application of the
receive callback to the unsigned length, in a state whose `_packetIndex` is 0,
followed by the reset of the FIFO pointer; with recording callbacks the trace
gains exactly one invocation, of the receive callback with that length. -/
theorem handleDio0Rise_invokes_receive_once (s : LoRaPort)
    (rx : Nat → LoRaPort → LoRaPort) (tx : LoRaPort → LoRaPort) :
    if (s.chip.regs REG_IRQ_FLAGS % 256) &&& IRQ_PAYLOAD_CRC_ERROR_MASK ≠ 0 then
      handleDio0Rise rx tx s = irqCleared s ∧
        callbackCalls (handleDio0Rise recordReceive recordTxDone s).trace
          = callbackCalls s.trace
    else if (s.chip.regs REG_IRQ_FLAGS % 256) &&& IRQ_RX_DONE_MASK ≠ 0
        ∧ s._onReceive = true then
      receivedLength s < 256 ∧
        (atReceiveCall s)._packetIndex = 0 ∧
        handleDio0Rise rx tx s
          = writeRegister (rx (receivedLength s) (atReceiveCall s)) REG_FIFO_ADDR_PTR 0 ∧
        callbackCalls (handleDio0Rise recordReceive recordTxDone s).trace
          = .receiveCallback (receivedLength s) :: callbackCalls s.trace
    else True := by
  split
  · next hcrc =>
    refine ⟨handleDio0Rise_crc rx tx s hcrc, ?_⟩
    rw [handleDio0Rise_crc _ _ s hcrc]
    exact (irqCleared_fields s).2.2.2.2
  · next hcrc =>
    have hcrc0 : (s.chip.regs REG_IRQ_FLAGS % 256) &&& IRQ_PAYLOAD_CRC_ERROR_MASK = 0 := by
      omega
    split
    · next h =>
      obtain ⟨hrx, hb⟩ := h
      obtain ⟨hp, -, hcalls⟩ := atReceiveCall_fields s
      refine ⟨?_, hp, handleDio0Rise_rx rx tx s hcrc0 hrx hb, ?_⟩
      · unfold receivedLength
        split <;> omega
      · rw [handleDio0Rise_rx _ _ s hcrc0 hrx hb]
        simp only [REG_FIFO_ADDR_PTR]
        rw [writeRegister_reg _ 13 _ (by decide) (by decide) (by decide)]
        show callbackCalls (.ss HIGH :: .transfer (13 + 128) _ :: .ss LOW :: _) = _
        rw [callbackCalls_exchange, ← hcalls]
        simp [recordReceive, LoRaPort.emit, callbackCalls]
    · trivial

/-- Claim C12: for every stored configuration (bandwidth, spreading factor,
coding rate, preamble length, CRC flag), in particular every one with a
positive bandwidth and a spreading factor in 6..12, and all payload lengths
`a <= b`, in particular all 16-bit ones, `timeOnAir a <= timeOnAir b`, the
formula being evaluated in exact arithmetic. -/
theorem timeOnAir_monotone_in_length (s : LoRaPort) (a b : Nat) (hab : a ≤ b) :
    timeOnAir s a ≤ timeOnAir s b :=
  timeOnAir_mono s a b hab

/-- Instance of C12: payload lengths 10 and 200 in the idle configuration,
whose bandwidth is positive and whose spreading factor is 7. -/
theorem timeOnAir_monotone_in_length_witness :
    0 < LoRaPort.idle._bandwidth ∧ 6 ≤ LoRaPort.idle._datarate ∧
      LoRaPort.idle._datarate ≤ 12 ∧ 10 ≤ 200 ∧
      timeOnAir LoRaPort.idle 10 ≤ timeOnAir LoRaPort.idle 200 :=
  ⟨by decide, by decide, by decide, by decide,
    timeOnAir_monotone_in_length LoRaPort.idle 10 200 (by decide)⟩

/-- Claim C13: for every 8-bit address and value, `readRegister` adds to the
trace chip-select low, one two-byte exchange whose first byte is
`address & 0x7F`, with bit 7 clear, and whose second byte is 0x00, then
chip-select high, and returns the byte answered in that exchange;
`writeRegister` adds chip-select low, one two-byte exchange whose first byte is
`address | 0x80`, with bit 7 set, and whose second byte is the value, then
chip-select high. -/
theorem register_access_protocol (s : LoRaPort) (address value : Nat)
    (ha : address < 256) (hv : value < 256) :
    (readRegister s address).2.trace
        = .ss HIGH :: .transfer (address &&& 0x7f) 0x00 :: .ss LOW :: s.trace ∧
      (address &&& 0x7f) / 128 % 2 = 0 ∧
      (readRegister s address).1 = (s.chip.exchange (address &&& 0x7f) 0x00).1 % 256 ∧
      (writeRegister s address value).trace
        = .ss HIGH :: .transfer (address ||| 0x80) value :: .ss LOW :: s.trace ∧
      (address ||| 0x80) / 128 % 2 = 1 := by
  have h1 : address % 256 = address := by omega
  have h2 : value % 256 = value := by omega
  refine ⟨?_, (addr_bit7 address ha).1, ?_, ?_, (addr_bit7 address ha).2⟩
  · simp [readRegister, singleTransfer, LoRaPort.emit]
  · simp [readRegister, singleTransfer, LoRaPort.emit]
  · simp [writeRegister, singleTransfer, LoRaPort.emit, h1, h2]

/-- Instance of C13: modem-config-1 and the value 0x72. -/
theorem register_access_protocol_witness :
    0x1d < 256 ∧ 0x72 < 256 ∧
      ((readRegister LoRaPort.idle 0x1d).2.trace
          = .ss HIGH :: .transfer (0x1d &&& 0x7f) 0x00 :: .ss LOW :: LoRaPort.idle.trace ∧
        (0x1d &&& 0x7f) / 128 % 2 = 0 ∧
        (readRegister LoRaPort.idle 0x1d).1
          = (LoRaPort.idle.chip.exchange (0x1d &&& 0x7f) 0x00).1 % 256 ∧
        (writeRegister LoRaPort.idle 0x1d 0x72).trace
          = .ss HIGH :: .transfer (0x1d ||| 0x80) 0x72 :: .ss LOW :: LoRaPort.idle.trace ∧
        (0x1d ||| 0x80) / 128 % 2 = 1) :=
  ⟨by decide, by decide, register_access_protocol LoRaPort.idle 0x1d 0x72 (by decide) (by decide)⟩

/-- Claim C14: for every stored configuration with a positive bandwidth and
every payload length, `timeOnAir`, evaluated in exact arithmetic, equals the
formula of the specification,
`floor(1000 * ((p + 4.25) + ceil((8*len - 4*sf + 28 + 16*c) / (4*sf)) * d) * 2^sf / bw)`,
with `d` the stored coding-rate value plus 4; after `setCodingRate4` that `d`
is the requested denominator clamped to 5..8. -/
theorem timeOnAir_matches_formula (s : LoRaPort) (len denominator : Nat)
    (hbw : 0 < s._bandwidth) :
    timeOnAir s len =
        timeOnAirSpec s._bandwidth s._datarate s._preamble_len s._crc_on (s._coderate + 4) len ∧
      timeOnAir (setCodingRate4 s denominator) len =
        timeOnAirSpec s._bandwidth s._datarate s._preamble_len s._crc_on
          (max 5 (min denominator 8)) len := by
  obtain ⟨h1, h2, h3, h4, h5⟩ := setCodingRate4_config s denominator
  refine ⟨timeOnAir_eq_spec s len hbw, ?_⟩
  rw [timeOnAir_eq_spec _ len (by rw [h1]; exact hbw), h1, h2, h3, h4, h5]

/-- Instance of C14: a 10-byte payload and denominator 5 in the idle
configuration. -/
theorem timeOnAir_matches_formula_witness :
    0 < LoRaPort.idle._bandwidth ∧
      (timeOnAir LoRaPort.idle 10 =
          timeOnAirSpec LoRaPort.idle._bandwidth LoRaPort.idle._datarate
            LoRaPort.idle._preamble_len LoRaPort.idle._crc_on (LoRaPort.idle._coderate + 4) 10 ∧
        timeOnAir (setCodingRate4 LoRaPort.idle 5) 10 =
          timeOnAirSpec LoRaPort.idle._bandwidth LoRaPort.idle._datarate
            LoRaPort.idle._preamble_len LoRaPort.idle._crc_on (max 5 (min 5 8)) 10) :=
  ⟨by decide, timeOnAir_matches_formula LoRaPort.idle 10 5 (by decide)⟩

/-- Claim C15 fails as stated: from construction, `onReceive` with a callback
followed by `onTxDone` with a callback leaves both slots non-empty. -/
theorem both_callbacks_bound :
    ¬ ((bindCalls (LoRaPort.init Chip.idle 125000)
          [.onReceive true, .onTxDone true])._onReceive = false ∨
        (bindCalls (LoRaPort.init Chip.idle 125000)
          [.onReceive true, .onTxDone true])._onTxDone = false) := by
  decide

/-- Claim C15 as amended: in every state reached from construction through a
sequence of `onReceive` and `onTxDone` calls, the receive slot holds what the
most recent `onReceive` call passed and the transmit-done slot what the most
recent `onTxDone` call passed, each empty when there was no such call and each
untouched by calls of the other kind; the rising-edge handler is attached
exactly when the most recent call of either kind passed a non-empty
callback. -/
theorem callback_slots_independent (c : Chip) (bandwidth : Nat) (calls : List BindCall) :
    (bindCalls (LoRaPort.init c bandwidth) calls)._onReceive
        = ((calls.filterMap BindCall.receiveArg).getLast?).getD false ∧
      (bindCalls (LoRaPort.init c bandwidth) calls)._onTxDone
        = ((calls.filterMap BindCall.txDoneArg).getLast?).getD false ∧
      (bindCalls (LoRaPort.init c bandwidth) calls)._dio0
        = ((calls.getLast?).map BindCall.arg).getD false :=
  bindCalls_fields (LoRaPort.init c bandwidth) calls

/-- Claim C16, evaluated at a failing input.  The freshly constructed driver
stores 5 as coding rate, outside 1..4, so `timeOnAir` multiplies by 9, and
`begin` does not change it: for a 10-byte payload `timeOnAir` gives 40 ms where
the formula with the chip's coding rate 4/5 gives 27 ms. -/
theorem fresh_coding_rate_out_of_range :
    LoRaPort.idle._coderate = 5 ∧
      ¬ (1 ≤ LoRaPort.idle._coderate ∧ LoRaPort.idle._coderate ≤ 4) ∧
      LoRaPort.idle._coderate + 4 = 9 ∧
      (begin LoRaPort.idle 915000000).2._coderate = 5 ∧
      timeOnAir LoRaPort.idle 10 = 40 ∧
      timeOnAirSpec 125000 7 8 0 5 10 = 27 :=
  ⟨by decide, by decide, by decide, by decide, timeOnAir_fresh_value, timeOnAirSpec_rate_4_5⟩

/-- Claim C17, evaluated at a failing input.  After `setSignalBandwidth(250000)`
and then `setSignalBandwidth(7800)` the index written to modem-config-1 is 0
and `getSignalBandwidth` returns 7800, while the cached bandwidth is still
250000: the first branch of the ladder does not assign `_bandwidth`. -/
theorem setSignalBandwidth_leaves_cache_stale :
    ((setSignalBandwidth LoRaPort.idle 250000).bind fun s => setSignalBandwidth s 7800).map
        (fun s => (s._bandwidth, bwField s.chip, (getSignalBandwidth s).1))
      = some (250000, 0, 7800) := by
  decide

/-- Claim C18: for every byte in modem-config-1 and every argument, in a state
whose spreading-factor field is at most 12 (so that `setSignalBandwidth`
returns), `setSignalBandwidth` leaves bits 3-0 as they were, `setCodingRate4`
sets bits 3-1 to the denominator clamped to 5..8 minus 4 and leaves bits 7-4
and bit 0 as they were, `explicitHeaderMode` clears bit 0 and
`implicitHeaderMode` sets it, both leaving bits 7-1 as they were. -/
theorem modem_config_1_fields_are_independent (s : LoRaPort) (sbw denominator : Nat)
    (hsf : sfField s.chip ≤ 12) :
    (∃ s', setSignalBandwidth s sbw = some s' ∧
        s'.chip.regs REG_MODEM_CONFIG_1 % 16 = s.chip.regs REG_MODEM_CONFIG_1 % 256 % 16) ∧
      ((setCodingRate4 s denominator).chip.regs REG_MODEM_CONFIG_1 / 2 % 8
          = max 5 (min denominator 8) - 4 ∧
        (setCodingRate4 s denominator).chip.regs REG_MODEM_CONFIG_1 / 16
          = s.chip.regs REG_MODEM_CONFIG_1 % 256 / 16 ∧
        (setCodingRate4 s denominator).chip.regs REG_MODEM_CONFIG_1 % 2
          = s.chip.regs REG_MODEM_CONFIG_1 % 256 % 2) ∧
      ((explicitHeaderMode s).chip.regs REG_MODEM_CONFIG_1 / 2
          = s.chip.regs REG_MODEM_CONFIG_1 % 256 / 2 ∧
        (explicitHeaderMode s).chip.regs REG_MODEM_CONFIG_1 % 2 = 0) ∧
      ((implicitHeaderMode s).chip.regs REG_MODEM_CONFIG_1 / 2
          = s.chip.regs REG_MODEM_CONFIG_1 % 256 / 2 ∧
        (implicitHeaderMode s).chip.regs REG_MODEM_CONFIG_1 % 2 = 1) := by
  have hx : s.chip.regs REG_MODEM_CONFIG_1 % 256 < 256 := by omega
  refine ⟨?_, ?_, ?_, ?_⟩
  · obtain ⟨s', hs', hr⟩ := setSignalBandwidth_spec s sbw hsf
    exact ⟨s', hs', by rw [hr]; omega⟩
  · obtain ⟨-, hr⟩ := setCodingRate4_spec s denominator
    rw [hr]
    exact coding_rate_merge _ hx _ (by omega)
  · rw [explicitHeaderMode_reg]
    exact header_clear_frame _ hx
  · rw [implicitHeaderMode_reg]
    exact header_set_frame _ hx

/-- Instance of C18: 100 kHz and denominator 7 on the idle chip. -/
theorem modem_config_1_fields_are_independent_witness :
    sfField LoRaPort.idle.chip ≤ 12 ∧
      ((∃ s', setSignalBandwidth LoRaPort.idle 100000 = some s' ∧
          s'.chip.regs REG_MODEM_CONFIG_1 % 16
            = LoRaPort.idle.chip.regs REG_MODEM_CONFIG_1 % 256 % 16) ∧
        ((setCodingRate4 LoRaPort.idle 7).chip.regs REG_MODEM_CONFIG_1 / 2 % 8
            = max 5 (min 7 8) - 4 ∧
          (setCodingRate4 LoRaPort.idle 7).chip.regs REG_MODEM_CONFIG_1 / 16
            = LoRaPort.idle.chip.regs REG_MODEM_CONFIG_1 % 256 / 16 ∧
          (setCodingRate4 LoRaPort.idle 7).chip.regs REG_MODEM_CONFIG_1 % 2
            = LoRaPort.idle.chip.regs REG_MODEM_CONFIG_1 % 256 % 2) ∧
        ((explicitHeaderMode LoRaPort.idle).chip.regs REG_MODEM_CONFIG_1 / 2
            = LoRaPort.idle.chip.regs REG_MODEM_CONFIG_1 % 256 / 2 ∧
          (explicitHeaderMode LoRaPort.idle).chip.regs REG_MODEM_CONFIG_1 % 2 = 0) ∧
        ((implicitHeaderMode LoRaPort.idle).chip.regs REG_MODEM_CONFIG_1 / 2
            = LoRaPort.idle.chip.regs REG_MODEM_CONFIG_1 % 256 / 2 ∧
          (implicitHeaderMode LoRaPort.idle).chip.regs REG_MODEM_CONFIG_1 % 2 = 1)) :=
  ⟨by decide, modem_config_1_fields_are_independent LoRaPort.idle 100000 7 (by decide)⟩

/-- Claim C19: in every register state whose bandwidth field is a table index
0..9 and whose spreading-factor field is in 6..12, the divisor
`getSignalBandwidth() / (1L << getSpreadingFactor())` of `setLdoFlag` is at
least 1, and `setLdoFlag` returns: its division by that divisor is defined. -/
theorem setLdoFlag_divisor_at_least_one (s : LoRaPort) (hbw : bwField s.chip ≤ 9)
    (h6 : 6 ≤ sfField s.chip) (h12 : sfField s.chip ≤ 12) :
    1 ≤ Int.tdiv (getSignalBandwidth s).1
        ((1 <<< (getSpreadingFactor (getSignalBandwidth s).2).1 : Nat) : Int) ∧
      ∃ s', setLdoFlag s = some s' := by
  obtain ⟨hb, hs⟩ := getters_read_fields s
  have hpos := ladder_divisor_pos (bwField s.chip) (sfField s.chip) (by omega) h6 h12
  refine ⟨by rw [hb, hs]; exact hpos, ?_⟩
  have hne : ldoDivisor s.chip ≠ 0 := by
    unfold ldoDivisor
    omega
  obtain ⟨s', hs', -⟩ := setLdoFlag_spec s hne
  exact ⟨s', hs'⟩

/-- Instance of C19: the idle chip, 125 kHz and spreading factor 7. -/
theorem setLdoFlag_divisor_at_least_one_witness :
    bwField LoRaPort.idle.chip ≤ 9 ∧ 6 ≤ sfField LoRaPort.idle.chip ∧
      sfField LoRaPort.idle.chip ≤ 12 ∧
      (1 ≤ Int.tdiv (getSignalBandwidth LoRaPort.idle).1
          ((1 <<< (getSpreadingFactor (getSignalBandwidth LoRaPort.idle).2).1 : Nat) : Int) ∧
        ∃ s', setLdoFlag LoRaPort.idle = some s') :=
  ⟨by decide, by decide, by decide,
    setLdoFlag_divisor_at_least_one LoRaPort.idle (by decide) (by decide) (by decide)⟩

/-- Claim C20, evaluated at a failing input.  `setOCP(40)` writes 0x3F, trim 31,
and `setOCP(45)` writes 0x20, trim 0: the lower request programs the higher
trim, because `(40 - 45) / 5 = -1` becomes 255 in the `uint8_t` `ocpTrim`. -/
theorem setOCP_low_request_wraps :
    (setOCP LoRaPort.idle 40).chip.regs REG_OCP = 0x3F ∧
      (setOCP LoRaPort.idle 45).chip.regs REG_OCP = 0x20 ∧
      ocpTrimWritten LoRaPort.idle 40 = 31 ∧
      ocpTrimWritten LoRaPort.idle 45 = 0 ∧
      ¬ (ocpTrimWritten LoRaPort.idle 40 ≤ ocpTrimWritten LoRaPort.idle 45) := by
  decide

end LoRa
